import Mathlib

/-!
Verification development for the video_auto_cut web backend
(job orchestration kernel: task queue, credit ledger, coupon redemption,
job status reconciliation, worker error propagation, step2 chapter
remapping).

The Python modules under src/web_api are shallowly embedded:

* task_queue.py        -> namespace TaskQueue
* repository.py        -> namespaces Billing (users / coupons / ledger)
                          and JobStore (on-disk job metadata)
* services/tasks.py    -> namespace TasksSvc
* services/step1.py    -> the credit gate prefix of run_step1
* services/step2.py    -> namespace Step2Svc
* api/routes.py        -> the step1_run endpoint

SQLite tables are lists of row structures; a transaction is a pure
function from state to state, and a rollback returns the original state.
Timestamps and worker ids are opaque strings supplied by the caller.
-/

/-! ## Python string primitives

Executable models of the Python string operations used by the embedded
code: str.strip, str.upper and the containment test (the in operator).
The Lean core versions do not reduce inside the kernel, so they are
re-implemented structurally over the character list. -/

def pyWhitespace (c : Char) : Bool :=
  c == ' ' || c == '\t' || c == '\n' || c == '\r' || c == '\x0b' || c == '\x0c'

/-- Model of Python str.strip with no arguments. -/
def pyStrip (s : String) : String :=
  String.mk (((s.data.dropWhile pyWhitespace).reverse.dropWhile pyWhitespace).reverse)

/-- Model of Python str.upper (ASCII uppercasing; the strings compared in
the embedded code are ASCII status and code words). -/
def pyUpper (s : String) : String :=
  String.mk (s.data.map Char.toUpper)

def hasSubList : List Char → List Char → Bool
  | [], pat => pat.isEmpty
  | c :: rest, pat => pat.isPrefixOf (c :: rest) || hasSubList rest pat

/-- Model of the Python expression pat in s. -/
def pyContains (s pat : String) : Bool :=
  hasSubList s.data pat.data

/-! ## Constants

Modelled from the spec: the module web_api/constants.py is imported by
every embedded file but is not part of the available sources.  The values
below follow the spec data model (section 3.1: task status in QUEUED,
RUNNING, SUCCEEDED, FAILED; task type in STEP1, STEP2; the job status
names of section 4.3) and the progress rungs of section 4.3
(UPLOAD_READY = 10, STEP1_READY = 35, STEP1_CONFIRMED = 45,
STEP2_READY = 75, STEP2_CONFIRMED = 80; the running rungs use the floor
of the documented ranges 11..29 and 46..74). -/

def TASK_STATUS_QUEUED : String := "QUEUED"

def TASK_STATUS_RUNNING : String := "RUNNING"

def TASK_STATUS_SUCCEEDED : String := "SUCCEEDED"

def TASK_STATUS_FAILED : String := "FAILED"

def TASK_TYPE_STEP1 : String := "STEP1"

def TASK_TYPE_STEP2 : String := "STEP2"

def PROGRESS_UPLOAD_READY : Int := 10

def PROGRESS_STEP1_RUNNING : Int := 11

def PROGRESS_STEP1_READY : Int := 35

def PROGRESS_STEP1_CONFIRMED : Int := 45

def PROGRESS_STEP2_RUNNING : Int := 46

def PROGRESS_STEP2_READY : Int := 75

def PROGRESS_STEP2_CONFIRMED : Int := 80

namespace TaskQueue

/-! ## Task queue (web_api/task_queue.py)

The queue_tasks table is a list of rows plus the next AUTOINCREMENT
rowid.  SELECT ... LIMIT 1 queries become Option-returning scans, and a
conditional UPDATE returns the SQL rowcount together with the new table
contents. -/

structure TaskRow where
  task_id : Nat
  job_id : String
  task_type : String
  status : String
  payload_json : String
  error_message : Option String
  worker_id : Option String
  created_at : String
  updated_at : String
  started_at : Option String
  finished_at : Option String
deriving Repr, DecidableEq

structure QueueDB where
  rows : List TaskRow
  next_id : Nat
deriving Repr, DecidableEq

def emptyQueueDB : QueueDB :=
  { rows := [], next_id := 1 }

def liveStatus (s : String) : Bool :=
  s == TASK_STATUS_QUEUED || s == TASK_STATUS_RUNNING

/-- Rows matching the coalescing WHERE clause of enqueue_task
(job_id = ? AND task_type = ? AND status IN (QUEUED, RUNNING)). -/
def matchingLive (job_id task_type : String) (rows : List TaskRow) : List TaskRow :=
  rows.filter (fun r => r.job_id == job_id && r.task_type == task_type && liveStatus r.status)

/-- SELECT ... ORDER BY task_id DESC LIMIT 1 over a filtered row list. -/
def maxByTaskId : List TaskRow → Option TaskRow
  | [] => none
  | r :: rs =>
    match maxByTaskId rs with
    | none => some r
    | some m => if m.task_id < r.task_id then some r else some m

/-- SELECT ... ORDER BY task_id ASC LIMIT 1 over a filtered row list. -/
def minByTaskId : List TaskRow → Option TaskRow
  | [] => none
  | r :: rs =>
    match minByTaskId rs with
    | none => some r
    | some m => if r.task_id < m.task_id then some r else some m

def liveRowForJob (job_id task_type : String) (rows : List TaskRow) : Option TaskRow :=
  maxByTaskId (matchingLive job_id task_type rows)

/-- Fallback SELECT of enqueue_task: max task_id for the pair over any
status. -/
def maxTaskIdAnyStatus (job_id task_type : String) (rows : List TaskRow) : Nat :=
  match maxByTaskId (rows.filter (fun r => r.job_id == job_id && r.task_type == task_type)) with
  | none => 0
  | some r => r.task_id

def newTaskRow (tid : Nat) (job_id task_type payload_json now : String) : TaskRow :=
  { task_id := tid
    job_id := job_id
    task_type := task_type
    status := TASK_STATUS_QUEUED
    payload_json := payload_json
    error_message := none
    worker_id := none
    created_at := now
    updated_at := now
    started_at := none
    finished_at := none }

/-- Embedding of enqueue_task.  The payload is already serialized to
JSON text by the caller (json.dumps of the payload dict).  A raised
RuntimeError is the error case of the Except. -/
def enqueue_task (job_id task_type payload_json now : String) (db : QueueDB) :
    Except String (Nat × QueueDB) :=
  if !(task_type == TASK_TYPE_STEP1 || task_type == TASK_TYPE_STEP2) then
    Except.error ("unsupported task type: " ++ task_type)
  else
    let insertPath : Except String (Nat × QueueDB) :=
      let tid := db.next_id
      let rows2 := db.rows ++ [newTaskRow tid job_id task_type payload_json now]
      let tid2 := if tid == 0 then maxTaskIdAnyStatus job_id task_type rows2 else tid
      if tid2 == 0 then Except.error "failed to enqueue task"
      else Except.ok (tid2, { rows := rows2, next_id := db.next_id + 1 })
    match liveRowForJob job_id task_type db.rows with
    | some existing =>
      if 0 < existing.task_id then Except.ok (existing.task_id, db) else insertPath
    | none => insertPath

def minQueuedRow (rows : List TaskRow) : Option TaskRow :=
  minByTaskId (rows.filter (fun r => r.status == TASK_STATUS_QUEUED))

/-- Row produced by the conditional claim UPDATE: status RUNNING,
worker recorded, started_at only filled when it was NULL, updated_at
refreshed, error_message cleared. -/
def claimUpdateRow (wid now : String) (r : TaskRow) : TaskRow :=
  { r with
    status := TASK_STATUS_RUNNING
    worker_id := some wid
    started_at := some (r.started_at.getD now)
    updated_at := now
    error_message := none }

def claimMatch (tid : Nat) (r : TaskRow) : Bool :=
  r.task_id == tid && r.status == TASK_STATUS_QUEUED

/-- Conditional UPDATE ... WHERE task_id = ? AND status = QUEUED.  The
first component is the SQL rowcount. -/
def claimUpdate (wid now : String) (tid : Nat) (rows : List TaskRow) : Nat × List TaskRow :=
  ((rows.filter (claimMatch tid)).length,
   rows.map (fun r => if claimMatch tid r then claimUpdateRow wid now r else r))

def findTaskRow (tid : Nat) (rows : List TaskRow) : Option TaskRow :=
  rows.find? (fun r => r.task_id == tid)

/-- Retry loop of claim_next_task.  The fuel starts at 3 (the range(3)
loop).  Writes committed by other workers sharing the queue database may
land between the SELECT and the conditional UPDATE of an attempt; env
models them (env is the identity when the worker is alone).  A failed
conditional UPDATE rolls the transaction back, which restores exactly
the state the interfering writes left behind. -/
def claim_next_task_aux (wid now : String) (env : Nat → QueueDB → QueueDB) :
    Nat → QueueDB → Option TaskRow × QueueDB
  | 0, db => (none, db)
  | Nat.succ fuel, db =>
    match minQueuedRow db.rows with
    | none => (none, db)
    | some t =>
      if t.task_id == 0 then
        claim_next_task_aux wid now env fuel db
      else
        let db1 := env fuel db
        let upd := claimUpdate wid now t.task_id db1.rows
        if upd.fst == 0 then
          claim_next_task_aux wid now env fuel db1
        else
          let db2 : QueueDB := { rows := upd.snd, next_id := db1.next_id }
          match findTaskRow t.task_id db2.rows with
          | some claimed =>
            if claimed.status == TASK_STATUS_RUNNING then (some claimed, db2)
            else claim_next_task_aux wid now env fuel db2
          | none => claim_next_task_aux wid now env fuel db2

/-- Embedding of claim_next_task. -/
def claim_next_task (wid now : String) (env : Nat → QueueDB → QueueDB) (db : QueueDB) :
    Option TaskRow × QueueDB :=
  claim_next_task_aux wid now env 3 db

/-- Interference-free environment: the worker is alone on the queue. -/
def soloEnv : Nat → QueueDB → QueueDB := fun _ db => db

/-- Embedding of set_task_succeeded. -/
def set_task_succeeded (tid : Nat) (now : String) (db : QueueDB) : QueueDB :=
  { db with
    rows := db.rows.map (fun r =>
      if r.task_id == tid then
        { r with status := TASK_STATUS_SUCCEEDED, finished_at := some now,
                 updated_at := now, error_message := none }
      else r) }

/-- Embedding of set_task_failed. -/
def set_task_failed (tid : Nat) (message now : String) (db : QueueDB) : QueueDB :=
  { db with
    rows := db.rows.map (fun r =>
      if r.task_id == tid then
        { r with status := TASK_STATUS_FAILED, finished_at := some now,
                 updated_at := now, error_message := some message }
      else r) }

/-! ### Queue well-formedness and the live-row invariant -/

/-- Row ids are the positive AUTOINCREMENT values below the next rowid,
and are pairwise distinct. -/
def WF (db : QueueDB) : Prop :=
  (∀ r ∈ db.rows, 0 < r.task_id ∧ r.task_id < db.next_id) ∧
    (db.rows.map (fun r => r.task_id)).Nodup ∧ 0 < db.next_id

def liveCount (job_id task_type : String) (rows : List TaskRow) : Nat :=
  (matchingLive job_id task_type rows).length

/-- Invariant I1: at most one live (QUEUED or RUNNING) row per
(job_id, task_type). -/
def liveInv (db : QueueDB) : Prop :=
  ∀ j t, liveCount j t db.rows ≤ 1

/-- The operations a client of the queue module can perform, with the
caller-supplied arguments (timestamps included). -/
inductive QueueOp where
  | enq (job_id task_type payload_json now : String)
  | claim (wid now : String)
  | succ (task_id : Nat) (now : String)
  | fail (task_id : Nat) (message now : String)

def applyQueueOp (db : QueueDB) : QueueOp → QueueDB
  | QueueOp.enq j t p now =>
    match enqueue_task j t p now db with
    | Except.ok res => res.snd
    | Except.error _ => db
  | QueueOp.claim wid now => (claim_next_task wid now soloEnv db).snd
  | QueueOp.succ tid now => set_task_succeeded tid now db
  | QueueOp.fail tid msg now => set_task_failed tid msg now db

def runQueueOps (ops : List QueueOp) : QueueDB :=
  ops.foldl applyQueueOp emptyQueueDB

end TaskQueue


namespace TaskQueue

/-! ### Lemmas about the LIMIT 1 scans -/

theorem maxByTaskId_mem (l : List TaskRow) : ∀ m, maxByTaskId l = some m → m ∈ l := by
  induction l with
  | nil => intro m h; simp [maxByTaskId] at h
  | cons r rs ih =>
    intro m h
    simp only [maxByTaskId] at h
    cases hrec : maxByTaskId rs with
    | none => rw [hrec] at h; simp at h; simp [h]
    | some m0 =>
      rw [hrec] at h
      by_cases hlt : m0.task_id < r.task_id
      · simp [hlt] at h; simp [h]
      · simp [hlt] at h
        subst h
        exact List.mem_cons_of_mem _ (ih m0 hrec)

theorem maxByTaskId_eq_none (l : List TaskRow) : maxByTaskId l = none ↔ l = [] := by
  cases l with
  | nil => simp [maxByTaskId]
  | cons r rs =>
    simp only [maxByTaskId]
    cases hrec : maxByTaskId rs with
    | none => simp
    | some m0 =>
      by_cases hlt : m0.task_id < r.task_id <;> simp [hlt]

theorem minByTaskId_mem (l : List TaskRow) : ∀ m, minByTaskId l = some m → m ∈ l := by
  induction l with
  | nil => intro m h; simp [minByTaskId] at h
  | cons r rs ih =>
    intro m h
    simp only [minByTaskId] at h
    cases hrec : minByTaskId rs with
    | none => rw [hrec] at h; simp at h; simp [h]
    | some m0 =>
      rw [hrec] at h
      by_cases hlt : r.task_id < m0.task_id
      · simp [hlt] at h; simp [h]
      · simp [hlt] at h
        subst h
        exact List.mem_cons_of_mem _ (ih m0 hrec)

theorem minByTaskId_eq_none (l : List TaskRow) : minByTaskId l = none ↔ l = [] := by
  cases l with
  | nil => simp [minByTaskId]
  | cons r rs =>
    simp only [minByTaskId]
    cases hrec : minByTaskId rs with
    | none => simp
    | some m0 =>
      by_cases hlt : r.task_id < m0.task_id <;> simp [hlt]

theorem minByTaskId_min (l : List TaskRow) :
    ∀ m, minByTaskId l = some m → ∀ x ∈ l, m.task_id ≤ x.task_id := by
  induction l with
  | nil => intro m h; simp [minByTaskId] at h
  | cons r rs ih =>
    intro m h x hx
    simp only [minByTaskId] at h
    cases hrec : minByTaskId rs with
    | none =>
      rw [hrec] at h
      simp at h
      have hnil : rs = [] := (minByTaskId_eq_none rs).mp hrec
      subst hnil
      simp at hx
      simp [hx, h]
    | some m0 =>
      rw [hrec] at h
      rcases List.mem_cons.mp hx with hx | hx
      · by_cases hlt : r.task_id < m0.task_id
        · simp [hlt] at h; subst hx; simp [h]
        · simp [hlt] at h
          subst h
          subst hx
          omega
      · by_cases hlt : r.task_id < m0.task_id
        · simp [hlt] at h
          subst h
          exact le_of_lt (lt_of_lt_of_le hlt (ih m0 hrec x hx))
        · simp [hlt] at h
          subst h
          exact ih m0 hrec x hx

theorem minQueuedRow_mem {rows : List TaskRow} {t : TaskRow} (h : minQueuedRow rows = some t) :
    t ∈ rows :=
  (List.mem_filter.mp (minByTaskId_mem _ _ h)).1

theorem minQueuedRow_queued {rows : List TaskRow} {t : TaskRow}
    (h : minQueuedRow rows = some t) : t.status = TASK_STATUS_QUEUED := by
  have := (List.mem_filter.mp (minByTaskId_mem _ _ h)).2
  simpa using this

theorem minQueuedRow_min {rows : List TaskRow} {t : TaskRow} (h : minQueuedRow rows = some t) :
    ∀ r ∈ rows, r.status = TASK_STATUS_QUEUED → t.task_id ≤ r.task_id := by
  intro r hr hst
  exact minByTaskId_min _ _ h r (List.mem_filter.mpr ⟨hr, by simp [hst]⟩)

theorem minQueuedRow_isSome_iff {rows : List TaskRow} :
    (minQueuedRow rows).isSome = true ↔ ∃ r ∈ rows, r.status = TASK_STATUS_QUEUED := by
  constructor
  · intro h
    cases hm : minQueuedRow rows with
    | none => rw [hm] at h; simp at h
    | some t => exact ⟨t, minQueuedRow_mem hm, minQueuedRow_queued hm⟩
  · intro ⟨r, hr, hst⟩
    cases hm : minQueuedRow rows with
    | none =>
      have hfil : rows.filter (fun r => r.status == TASK_STATUS_QUEUED) = [] :=
        (minByTaskId_eq_none _).mp hm
      have := List.filter_eq_nil_iff.mp hfil r hr
      simp [hst] at this
    | some t => simp

end TaskQueue

namespace TaskQueue

/-! ### Row identity and the conditional claim UPDATE -/

theorem row_eq_of_task_id_eq {rows : List TaskRow} {a b : TaskRow}
    (hnd : (rows.map (fun r => r.task_id)).Nodup) (ha : a ∈ rows) (hb : b ∈ rows)
    (h : a.task_id = b.task_id) : a = b :=
  List.inj_on_of_nodup_map hnd ha hb h

theorem find_map_by_id (g : TaskRow → TaskRow) (hg : ∀ r, (g r).task_id = r.task_id) :
    ∀ (rows : List TaskRow) (t : TaskRow), t ∈ rows →
      (rows.map (fun r => r.task_id)).Nodup →
      (rows.map g).find? (fun r => r.task_id == t.task_id) = some (g t) := by
  intro rows
  induction rows with
  | nil => intro t ht; simp at ht
  | cons r rs ih =>
    intro t ht hnd
    simp only [List.map_cons, List.find?]
    by_cases hid : r.task_id = t.task_id
    · have : r = t := by
        rcases List.mem_cons.mp ht with h | h
        · exact h.symm
        · exact row_eq_of_task_id_eq hnd (List.mem_cons_self r rs) ht hid
      subst this
      simp [hg]
    · have hne : t ≠ r := fun h => hid (by rw [h])
      have ht2 : t ∈ rs := by
        rcases List.mem_cons.mp ht with h | h
        · exact absurd h hne
        · exact h
      have hcond : ((g r).task_id == t.task_id) = false := by
        simp [hg]; exact hid
      rw [hcond]
      simp only [Bool.false_eq_true, if_false]
      exact ih t ht2 (List.nodup_cons.mp hnd).2

/-- Single-worker characterization of a successful claim: with a QUEUED
row present and no interference, the retry loop succeeds on its first
attempt and applies the conditional update to the minimal QUEUED row. -/
theorem claim_next_task_solo_spec (wid now : String) (db : QueueDB) (hwf : WF db)
    (t : TaskRow) (ht : minQueuedRow db.rows = some t) :
    claim_next_task wid now soloEnv db =
      (some (claimUpdateRow wid now t),
       { rows := db.rows.map (fun r =>
           if r.task_id == t.task_id then claimUpdateRow wid now r else r),
         next_id := db.next_id }) := by
  have htmem := minQueuedRow_mem ht
  have htq := minQueuedRow_queued ht
  have hpos : 0 < t.task_id := (hwf.1 t htmem).1
  have hid0 : (t.task_id == 0) = false := by
    simp only [beq_eq_false_iff_ne, ne_eq]
    omega
  have hmatch_t : claimMatch t.task_id t = true := by
    simp [claimMatch, htq]
  have hcnt : ((db.rows.filter (claimMatch t.task_id)).length == 0) = false := by
    have : t ∈ db.rows.filter (claimMatch t.task_id) := List.mem_filter.mpr ⟨htmem, hmatch_t⟩
    have hne : db.rows.filter (claimMatch t.task_id) ≠ [] := List.ne_nil_of_mem this
    simp [List.length_eq_zero, hne]
  have hmapeq :
      db.rows.map (fun r => if claimMatch t.task_id r then claimUpdateRow wid now r else r) =
        db.rows.map (fun r => if r.task_id == t.task_id then claimUpdateRow wid now r else r) := by
    apply List.map_congr_left
    intro r hr
    by_cases hid : r.task_id = t.task_id
    · have : r = t := row_eq_of_task_id_eq hwf.2.1 hr htmem hid
      subst this
      simp [claimMatch, htq]
    · have h1 : claimMatch t.task_id r = false := by
        simp [claimMatch]
        intro h
        exact absurd h hid
      have h2 : (r.task_id == t.task_id) = false := by simp [hid]
      rw [h1, h2]
  have hfind :
      (db.rows.map (fun r =>
          if r.task_id == t.task_id then claimUpdateRow wid now r else r)).find?
          (fun r => r.task_id == t.task_id) =
        some (claimUpdateRow wid now t) := by
    have hgid : ∀ r : TaskRow,
        ((fun r => if r.task_id == t.task_id then claimUpdateRow wid now r else r) r).task_id =
          r.task_id := by
      intro r
      by_cases hid : r.task_id = t.task_id <;> simp [hid, claimUpdateRow]
    have := find_map_by_id _ hgid db.rows t htmem hwf.2.1
    simpa using this
  simp only [claim_next_task, claim_next_task_aux, ht, hid0, Bool.false_eq_true, if_false,
    soloEnv, claimUpdate, hcnt, findTaskRow, hmapeq, hfind]
  simp [claimUpdateRow]

end TaskQueue

namespace TaskQueue

/-! ### Invariant preservation -/

def QInv (db : QueueDB) : Prop := WF db ∧ liveInv db

theorem claim_no_queued (wid now : String) (env : Nat → QueueDB → QueueDB) (db : QueueDB)
    (h : minQueuedRow db.rows = none) : claim_next_task wid now env db = (none, db) := by
  simp only [claim_next_task, claim_next_task_aux, h]

theorem liveCount_map_le (g : TaskRow → TaskRow)
    (hjob : ∀ r, (g r).job_id = r.job_id) (htype : ∀ r, (g r).task_type = r.task_type)
    (hlive : ∀ r, liveStatus (g r).status = true → liveStatus r.status = true)
    (j t : String) (rows : List TaskRow) :
    liveCount j t (rows.map g) ≤ liveCount j t rows := by
  unfold liveCount matchingLive
  rw [← List.countP_eq_length_filter, ← List.countP_eq_length_filter, List.countP_map]
  apply List.countP_mono_left
  intro r _ h
  simp only [Function.comp, Bool.and_eq_true] at h
  obtain ⟨⟨h1, h2⟩, h3⟩ := h
  rw [hjob] at h1
  rw [htype] at h2
  simp only [Bool.and_eq_true]
  exact ⟨⟨h1, h2⟩, hlive r h3⟩

theorem WF_map (db : QueueDB) (g : TaskRow → TaskRow)
    (hid : ∀ r, (g r).task_id = r.task_id) (hwf : WF db) :
    WF { rows := db.rows.map g, next_id := db.next_id } := by
  obtain ⟨hbound, hnd, hpos⟩ := hwf
  refine ⟨?_, ?_, hpos⟩
  · intro r hr
    obtain ⟨r0, hr0, rfl⟩ := List.mem_map.mp hr
    rw [hid]
    exact hbound r0 hr0
  · have : (db.rows.map g).map (fun r => r.task_id) = db.rows.map (fun r => r.task_id) := by
      rw [List.map_map]
      exact List.map_congr_left (fun r _ => hid r)
    rw [this]
    exact hnd

theorem QInv_claimUpdate (wid now : String) (tid : Nat) (db : QueueDB) (h : QInv db) :
    QInv { rows := (claimUpdate wid now tid db.rows).snd, next_id := db.next_id } := by
  obtain ⟨hwf, hlive⟩ := h
  have hid : ∀ r : TaskRow,
      ((fun r => if claimMatch tid r then claimUpdateRow wid now r else r) r).task_id =
        r.task_id := by
    intro r
    by_cases hc : claimMatch tid r <;> simp [hc, claimUpdateRow]
  constructor
  · exact WF_map db _ hid hwf
  · intro j t
    refine le_trans (liveCount_map_le _ ?_ ?_ ?_ j t db.rows) (hlive j t)
    · intro r; by_cases hc : claimMatch tid r <;> simp [hc, claimUpdateRow]
    · intro r; by_cases hc : claimMatch tid r <;> simp [hc, claimUpdateRow]
    · intro r h
      by_cases hc : claimMatch tid r
      · have : r.status = TASK_STATUS_QUEUED := by
          have := hc
          simp [claimMatch] at this
          exact this.2
        simp [liveStatus, this]
      · simp [hc] at h
        exact h

theorem claim_aux_preserves (P : QueueDB → Prop)
    (hstep : ∀ wid now tid db, P db →
      P { rows := (claimUpdate wid now tid db.rows).snd, next_id := db.next_id })
    (wid now : String) :
    ∀ fuel db, P db → P (claim_next_task_aux wid now soloEnv fuel db).snd := by
  intro fuel
  induction fuel with
  | zero => intro db hP; exact hP
  | succ n ih =>
    intro db hP
    simp only [claim_next_task_aux]
    cases hm : minQueuedRow db.rows with
    | none => exact hP
    | some t =>
      simp only []
      by_cases h0 : (t.task_id == 0) = true
      · simp only [h0, if_true]
        exact ih db hP
      · simp only [h0, if_false, Bool.false_eq_true, soloEnv]
        by_cases hcnt : ((claimUpdate wid now t.task_id db.rows).fst == 0) = true
        · simp only [claimUpdate] at hcnt
          simp only [claimUpdate, hcnt, if_true]
          exact ih db hP
        · simp only [claimUpdate] at hcnt
          simp only [claimUpdate, hcnt, if_false, Bool.false_eq_true]
          have hP2 := hstep wid now t.task_id db hP
          cases hf : findTaskRow t.task_id
              (db.rows.map (fun r => if claimMatch t.task_id r then claimUpdateRow wid now r else r)) with
          | none =>
            simp only [claimUpdate] at hP2 ⊢
            exact ih _ hP2
          | some claimed =>
            simp only [claimUpdate] at hP2 ⊢
            by_cases hst : (claimed.status == TASK_STATUS_RUNNING) = true
            · simp only [hst, if_true]
              exact hP2
            · simp only [hst, if_false, Bool.false_eq_true]
              exact ih _ hP2

theorem QInv_set_succeeded (tid : Nat) (now : String) (db : QueueDB) (h : QInv db) :
    QInv (set_task_succeeded tid now db) := by
  obtain ⟨hwf, hlive⟩ := h
  constructor
  · exact WF_map db _ (by intro r; by_cases hc : (r.task_id == tid) = true <;> simp [hc]) hwf
  · intro j t
    refine le_trans (liveCount_map_le _ ?_ ?_ ?_ j t db.rows) (hlive j t)
    · intro r; by_cases hc : (r.task_id == tid) = true <;> simp [hc]
    · intro r; by_cases hc : (r.task_id == tid) = true <;> simp [hc]
    · intro r h
      by_cases hc : (r.task_id == tid) = true
      · simp [hc, liveStatus, TASK_STATUS_SUCCEEDED, TASK_STATUS_QUEUED,
          TASK_STATUS_RUNNING] at h
      · simp [hc] at h
        exact h

theorem QInv_set_failed (tid : Nat) (msg now : String) (db : QueueDB) (h : QInv db) :
    QInv (set_task_failed tid msg now db) := by
  obtain ⟨hwf, hlive⟩ := h
  constructor
  · exact WF_map db _ (by intro r; by_cases hc : (r.task_id == tid) = true <;> simp [hc]) hwf
  · intro j t
    refine le_trans (liveCount_map_le _ ?_ ?_ ?_ j t db.rows) (hlive j t)
    · intro r; by_cases hc : (r.task_id == tid) = true <;> simp [hc]
    · intro r; by_cases hc : (r.task_id == tid) = true <;> simp [hc]
    · intro r h
      by_cases hc : (r.task_id == tid) = true
      · simp [hc, liveStatus, TASK_STATUS_FAILED, TASK_STATUS_QUEUED,
          TASK_STATUS_RUNNING] at h
      · simp [hc] at h
        exact h

end TaskQueue

namespace TaskQueue

/-! ### Enqueue characterization -/

theorem liveRowForJob_mem {j t : String} {rows : List TaskRow} {ex : TaskRow}
    (h : liveRowForJob j t rows = some ex) :
    ex ∈ rows ∧ ex.job_id = j ∧ ex.task_type = t ∧ liveStatus ex.status = true := by
  have hmem := maxByTaskId_mem _ _ h
  have := List.mem_filter.mp hmem
  refine ⟨this.1, ?_, ?_, ?_⟩
  · have := this.2; simp at this; exact this.1.1
  · have := this.2; simp at this; exact this.1.2
  · have := this.2; simp at this; simp [this.2]

theorem liveRowForJob_none_iff {j t : String} {rows : List TaskRow} :
    liveRowForJob j t rows = none ↔ matchingLive j t rows = [] :=
  maxByTaskId_eq_none _

theorem enqueue_existing_spec (db : QueueDB) (j t p now : String) (ex : TaskRow)
    (hwf : WF db) (hx : liveRowForJob j t db.rows = some ex)
    (hval : t = TASK_TYPE_STEP1 ∨ t = TASK_TYPE_STEP2) :
    enqueue_task j t p now db = Except.ok (ex.task_id, db) := by
  have hpos : 0 < ex.task_id := (hwf.1 ex (liveRowForJob_mem hx).1).1
  have hv : (!(t == TASK_TYPE_STEP1 || t == TASK_TYPE_STEP2)) = false := by
    rcases hval with h | h <;> simp [h]
  simp only [enqueue_task, hv, Bool.false_eq_true, if_false, hx, hpos, if_true]

theorem enqueue_new_spec (db : QueueDB) (j t p now : String)
    (hpos : 0 < db.next_id) (hnone : liveRowForJob j t db.rows = none)
    (hval : t = TASK_TYPE_STEP1 ∨ t = TASK_TYPE_STEP2) :
    enqueue_task j t p now db =
      Except.ok (db.next_id,
        { rows := db.rows ++ [newTaskRow db.next_id j t p now], next_id := db.next_id + 1 }) := by
  have hv : (!(t == TASK_TYPE_STEP1 || t == TASK_TYPE_STEP2)) = false := by
    rcases hval with h | h <;> simp [h]
  have h0 : (db.next_id == 0) = false := by simp; omega
  simp only [enqueue_task, hv, Bool.false_eq_true, if_false, hnone, h0, if_true]

theorem liveCount_eq_zero_of_none {j t : String} {rows : List TaskRow}
    (h : liveRowForJob j t rows = none) : liveCount j t rows = 0 := by
  unfold liveCount
  rw [liveRowForJob_none_iff.mp h]
  rfl

theorem liveCount_append_one (j t : String) (rows : List TaskRow) (r : TaskRow) :
    liveCount j t (rows ++ [r]) =
      liveCount j t rows +
        (if (r.job_id == j && r.task_type == t && liveStatus r.status) = true then 1 else 0) := by
  unfold liveCount matchingLive
  rw [List.filter_append, List.length_append]
  by_cases hc : (r.job_id == j && r.task_type == t && liveStatus r.status) = true <;>
    simp [hc]

theorem QInv_enqueue (db : QueueDB) (j t p now : String) (h : QInv db) :
    QInv (applyQueueOp db (QueueOp.enq j t p now)) := by
  obtain ⟨hwf, hlive⟩ := h
  simp only [applyQueueOp]
  by_cases hval : t = TASK_TYPE_STEP1 ∨ t = TASK_TYPE_STEP2
  · cases hx : liveRowForJob j t db.rows with
    | some ex =>
      rw [enqueue_existing_spec db j t p now ex hwf hx hval]
      exact ⟨hwf, hlive⟩
    | none =>
      rw [enqueue_new_spec db j t p now hwf.2.2 hx hval]
      have hnp := hwf.2.2
      constructor
      · refine ⟨?_, ?_, ?_⟩
        · intro r hr
          simp only [] at hr
          rcases List.mem_append.mp hr with hr | hr
          · have := hwf.1 r hr
            simp only []
            omega
          · simp at hr
            subst hr
            simp [newTaskRow]
            omega
        · simp only [List.map_append, List.nodup_append]
          refine ⟨hwf.2.1, by simp, ?_⟩
          intro a ha
          obtain ⟨r0, hr0, rfl⟩ := List.mem_map.mp ha
          have hb := hwf.1 r0 hr0
          simp [newTaskRow]
          omega
        · simp only []
          omega
      · intro j2 t2
        simp only []
        rw [liveCount_append_one]
        by_cases hmatch :
            ((newTaskRow db.next_id j t p now).job_id == j2 &&
              (newTaskRow db.next_id j t p now).task_type == t2 &&
              liveStatus (newTaskRow db.next_id j t p now).status) = true
        · have hj : j = j2 ∧ t = t2 := by
            simp [newTaskRow] at hmatch
            exact ⟨hmatch.1.1, hmatch.1.2⟩
          obtain ⟨rfl, rfl⟩ := hj
          rw [liveCount_eq_zero_of_none hx]
          simp [hmatch]
        · simp only [hmatch, if_false, Bool.false_eq_true, Nat.add_zero]
          exact hlive j2 t2
  · have hv : (!(t == TASK_TYPE_STEP1 || t == TASK_TYPE_STEP2)) = true := by
      simp only [not_or] at hval
      simp [hval.1, hval.2]
    simp only [enqueue_task, hv, if_true]
    exact ⟨hwf, hlive⟩

theorem QInv_apply (db : QueueDB) (op : QueueOp) (h : QInv db) :
    QInv (applyQueueOp db op) := by
  cases op with
  | enq j t p now => exact QInv_enqueue db j t p now h
  | claim wid now =>
    simp only [applyQueueOp, claim_next_task]
    exact claim_aux_preserves QInv (fun wid now tid db hP => QInv_claimUpdate wid now tid db hP)
      wid now 3 db h
  | succ tid now => exact QInv_set_succeeded tid now db h
  | fail tid msg now => exact QInv_set_failed tid msg now db h

theorem QInv_empty : QInv emptyQueueDB := by
  refine ⟨⟨?_, ?_, ?_⟩, ?_⟩
  · intro r hr; simp [emptyQueueDB] at hr
  · simp [emptyQueueDB]
  · simp [emptyQueueDB]
  · intro j t; simp [emptyQueueDB, liveCount, matchingLive]

theorem QInv_run (ops : List QueueOp) : QInv (runQueueOps ops) := by
  unfold runQueueOps
  have main : ∀ (l : List QueueOp) (db : QueueDB), QInv db → QInv (l.foldl applyQueueOp db) := by
    intro l
    induction l with
    | nil => intro db h; exact h
    | cons op rest ih =>
      intro db h
      exact ih _ (QInv_apply db op h)
  exact main ops emptyQueueDB QInv_empty

end TaskQueue

namespace TaskQueue

/-! ### Adversarial retry demonstration

A rival worker that always claims the selected row first: every
conditional update of the local worker then reports zero rows affected,
exhausting the three attempts. -/

def stealEnv : Nat → QueueDB → QueueDB := fun _ db =>
  match minQueuedRow db.rows with
  | none => db
  | some t =>
    { db with rows := db.rows.map (fun r =>
        if r.task_id == t.task_id then
          { r with status := TASK_STATUS_RUNNING, worker_id := some "rival" }
        else r) }

def stealDemoDB : QueueDB :=
  { rows := [newTaskRow 1 "job_a" TASK_TYPE_STEP1 "\x7b\x7d" "T0",
             newTaskRow 2 "job_b" TASK_TYPE_STEP1 "\x7b\x7d" "T0",
             newTaskRow 3 "job_c" TASK_TYPE_STEP1 "\x7b\x7d" "T0"],
    next_id := 4 }

def witnessClaimDB : QueueDB :=
  { rows := [newTaskRow 5 "job_w" TASK_TYPE_STEP1 "\x7b\x7d" "T0"], next_id := 6 }

end TaskQueue

open TaskQueue in
/-- C1: with at least one QUEUED row, claim_next_task returns the QUEUED
task with the smallest task_id after the conditional QUEUED to RUNNING
update (worker id recorded, started_at filled only when it was null,
updated_at refreshed, error message cleared); the update requires the row
to still be QUEUED, a failed conditional update is rolled back and
retried at most three times before the function returns nil (shown on a
three-row database with a rival worker stealing every selected row); with
no QUEUED row it returns nil and modifies nothing. -/
theorem claim_C1 :
    (∀ db : QueueDB,
       (minQueuedRow db.rows).isSome = true ↔ ∃ r ∈ db.rows, r.status = TASK_STATUS_QUEUED)
  ∧ (∀ (wid now : String) (env : Nat → QueueDB → QueueDB) (db : QueueDB),
       minQueuedRow db.rows = none → claim_next_task wid now env db = (none, db))
  ∧ (∀ (wid now : String) (db : QueueDB) (t : TaskRow), WF db → minQueuedRow db.rows = some t →
       t.status = TASK_STATUS_QUEUED
       ∧ (∀ r ∈ db.rows, r.status = TASK_STATUS_QUEUED → t.task_id ≤ r.task_id)
       ∧ claim_next_task wid now soloEnv db =
           (some (claimUpdateRow wid now t),
            { rows := db.rows.map (fun r =>
                if r.task_id == t.task_id then claimUpdateRow wid now r else r),
              next_id := db.next_id })
       ∧ (claimUpdateRow wid now t).status = TASK_STATUS_RUNNING
       ∧ (claimUpdateRow wid now t).worker_id = some wid
       ∧ (claimUpdateRow wid now t).started_at = some (t.started_at.getD now)
       ∧ (claimUpdateRow wid now t).updated_at = now
       ∧ (claimUpdateRow wid now t).error_message = none
       ∧ (claimUpdateRow wid now t).task_id = t.task_id)
  ∧ (claim_next_task "w1" "T1" stealEnv stealDemoDB).fst = none
  ∧ ((claim_next_task "w1" "T1" stealEnv stealDemoDB).snd).rows.countP
       (fun r => r.worker_id == some "rival") = 3 := by
  refine ⟨?_, ?_, ?_, ?_, ?_⟩
  · intro db
    exact minQueuedRow_isSome_iff
  · intro wid now env db h
    exact claim_no_queued wid now env db h
  · intro wid now db t hwf ht
    refine ⟨minQueuedRow_queued ht, minQueuedRow_min ht, ?_,
      rfl, rfl, rfl, rfl, rfl, rfl⟩
    exact claim_next_task_solo_spec wid now db hwf t ht
  · decide
  · decide

open TaskQueue in
/-- C1 witness: a concrete one-row queue where the claim succeeds with
the well-formedness hypotheses discharged by computation. -/
theorem claim_C1_witness :
    claim_next_task "w" "T" soloEnv witnessClaimDB =
      (some (claimUpdateRow "w" "T" (newTaskRow 5 "job_w" TASK_TYPE_STEP1 "\x7b\x7d" "T0")),
       { rows := witnessClaimDB.rows.map (fun r =>
           if r.task_id == (newTaskRow 5 "job_w" TASK_TYPE_STEP1 "\x7b\x7d" "T0").task_id then
             claimUpdateRow "w" "T" r
           else r),
         next_id := witnessClaimDB.next_id }) :=
  (claim_C1.2.2.1 "w" "T" witnessClaimDB
      (newTaskRow 5 "job_w" TASK_TYPE_STEP1 "\x7b\x7d" "T0")
      (by unfold WF; decide) (by decide)).2.2.1

open TaskQueue in
/-- C2: enqueue_task coalesces on a live row for the pair (the live row
id is returned and nothing is inserted); with no live row it appends
exactly one QUEUED row with the next rowid and returns that id; and after
any sequence of enqueue, claim, succeed and fail operations from the
empty queue, at most one row per (job_id, task_type) is QUEUED or
RUNNING. -/
theorem claim_C2 :
    (∀ (db : QueueDB) (j t p now : String) (ex : TaskRow),
       WF db → (t = TASK_TYPE_STEP1 ∨ t = TASK_TYPE_STEP2) →
       liveRowForJob j t db.rows = some ex →
       enqueue_task j t p now db = Except.ok (ex.task_id, db)
       ∧ ex ∈ db.rows ∧ ex.job_id = j ∧ ex.task_type = t ∧ liveStatus ex.status = true)
  ∧ (∀ (db : QueueDB) (j t p now : String),
       0 < db.next_id → (t = TASK_TYPE_STEP1 ∨ t = TASK_TYPE_STEP2) →
       liveRowForJob j t db.rows = none →
       enqueue_task j t p now db =
         Except.ok (db.next_id,
           { rows := db.rows ++ [newTaskRow db.next_id j t p now],
             next_id := db.next_id + 1 })
       ∧ (newTaskRow db.next_id j t p now).status = TASK_STATUS_QUEUED)
  ∧ (∀ ops : List QueueOp, liveInv (runQueueOps ops)) := by
  refine ⟨?_, ?_, ?_⟩
  · intro db j t p now ex hwf hval hx
    obtain ⟨hmem, hj, ht, hl⟩ := liveRowForJob_mem hx
    exact ⟨enqueue_existing_spec db j t p now ex hwf hx hval, hmem, hj, ht, hl⟩
  · intro db j t p now hpos hval hnone
    exact ⟨enqueue_new_spec db j t p now hpos hnone hval, rfl⟩
  · intro ops
    exact (QInv_run ops).2

open TaskQueue in
/-- C2 witness: a concrete enqueue into the empty queue inserts one
QUEUED row with id 1, with the hypotheses discharged by computation. -/
theorem claim_C2_witness :
    enqueue_task "job_w" TASK_TYPE_STEP1 "\x7b\x7d" "T" emptyQueueDB =
      Except.ok (emptyQueueDB.next_id,
        { rows := emptyQueueDB.rows ++
            [newTaskRow emptyQueueDB.next_id "job_w" TASK_TYPE_STEP1 "\x7b\x7d" "T"],
          next_id := emptyQueueDB.next_id + 1 })
    ∧ (newTaskRow emptyQueueDB.next_id "job_w" TASK_TYPE_STEP1 "\x7b\x7d" "T").status =
        TASK_STATUS_QUEUED :=
  claim_C2.2.1 emptyQueueDB "job_w" TASK_TYPE_STEP1 "\x7b\x7d" "T"
    (by decide) (Or.inl rfl) (by decide)

namespace Billing

/-! ## Users, coupons and the credit ledger (web_api/repository.py)

The three relational tables behind consume_step1_credit and
redeem_coupon_code.  A transaction builds a tentative state; raising
rolls back, so the error case of the Except carries no state. -/

structure UserRow where
  user_id : String
  email : Option String
  status : String
  activated_at : Option String
  created_at : String
  updated_at : String
deriving Repr, DecidableEq

/-- Value of the optional expires_at column: NULL or blank, a string the
Python datetime parser rejects, or a parseable timestamp (timestamps are
compared as integers; the embedded comparison is strict as in the
source). -/
inductive CouponExpiry where
  | absent
  | malformed
  | stamp (t : Int)
deriving Repr, DecidableEq

structure CouponRow where
  code : String
  credits : Int
  used_count : Int
  expires_at : CouponExpiry
  status : String
  source : Option String
  created_at : String
  updated_at : String
deriving Repr, DecidableEq

structure LedgerEntry where
  entry_id : Nat
  user_id : String
  delta : Int
  reason : String
  job_id : Option String
  idempotency_key : String
  created_at : String
deriving Repr, DecidableEq

structure BillingDB where
  users : List UserRow
  coupons : List CouponRow
  ledger : List LedgerEntry
  next_entry_id : Nat
deriving Repr, DecidableEq

/-- Errors raised by the repository functions: LookupError with a flag
string, or ValueError for an empty code. -/
inductive RepoError where
  | lookupError (flag : String)
  | valueError (msg : String)
deriving Repr, DecidableEq

/-- SELECT COALESCE(SUM(delta), 0) FROM credit_ledger WHERE user_id = ?. -/
def balance_in_tx (uid : String) (ledger : List LedgerEntry) : Int :=
  ((ledger.filter (fun e => e.user_id == uid)).map (fun e => e.delta)).sum

def get_credit_balance (uid : String) (db : BillingDB) : Int :=
  balance_in_tx uid db.ledger

def ledgerHasKey (key : String) (ledger : List LedgerEntry) : Bool :=
  ledger.any (fun e => e.idempotency_key == key)

/-- INSERT OR IGNORE keyed on the UNIQUE idempotency_key column; the
first component is the SQL rowcount. -/
def insert_or_ignore (entry : LedgerEntry) (ledger : List LedgerEntry) :
    Nat × List LedgerEntry :=
  if ledgerHasKey entry.idempotency_key ledger then (0, ledger) else (1, ledger ++ [entry])

def step1Key (job_id : String) : String :=
  "job:" ++ job_id ++ ":step1_success"

/-- Embedding of consume_step1_credit.  The ok value carries the
(consumed, balance) pair returned to the caller plus the committed
state. -/
def consume_step1_credit (uid jid now : String) (db : BillingDB) :
    Except RepoError ((Bool × Int) × BillingDB) :=
  let key := step1Key jid
  if ledgerHasKey key db.ledger then
    Except.ok ((false, balance_in_tx uid db.ledger), db)
  else
    let bal := balance_in_tx uid db.ledger
    if bal < 1 then
      Except.error (RepoError.lookupError "INSUFFICIENT_CREDITS")
    else
      let entry : LedgerEntry :=
        { entry_id := db.next_entry_id
          user_id := uid
          delta := -1
          reason := "JOB_STEP1_SUCCESS"
          job_id := some jid
          idempotency_key := key
          created_at := now }
      let ins := insert_or_ignore entry db.ledger
      if ins.fst == 0 then
        Except.ok ((false, balance_in_tx uid ins.snd), db)
      else
        let db2 : BillingDB :=
          { db with ledger := ins.snd, next_entry_id := db.next_entry_id + 1 }
        Except.ok ((true, balance_in_tx uid db2.ledger), db2)

def normalize_code (raw : String) : String :=
  pyUpper (pyStrip raw)

def find_user (uid : String) (users : List UserRow) : Option UserRow :=
  users.find? (fun u => u.user_id == uid)

def find_coupon (code : String) (coupons : List CouponRow) : Option CouponRow :=
  coupons.find? (fun c => c.code == code)

/-- Embedding of _assert_not_expired_or_invalid composed into
_assert_coupon_usable_in_tx; returns the raised flag, if any. -/
def assert_coupon_usable (c : CouponRow) (nowT : Int) : Option RepoError :=
  if 1 ≤ c.used_count then some (RepoError.lookupError "COUPON_CODE_EXHAUSTED")
  else if pyUpper c.status ≠ "ACTIVE" then some (RepoError.lookupError "COUPON_CODE_INVALID")
  else
    match c.expires_at with
    | CouponExpiry.absent => none
    | CouponExpiry.malformed => some (RepoError.lookupError "COUPON_CODE_INVALID")
    | CouponExpiry.stamp t =>
      if t < nowT then some (RepoError.lookupError "COUPON_CODE_EXPIRED") else none

def couponDisableMatch (code : String) (c : CouponRow) : Bool :=
  c.code == code && c.status == "ACTIVE" && c.used_count == 0

/-- UPDATE coupon_codes SET used_count = 1, status = DISABLED WHERE
code = ? AND status = ACTIVE AND COALESCE(used_count, 0) = 0; the first
component is the SQL rowcount. -/
def coupon_conditional_disable (code now : String) (coupons : List CouponRow) :
    Nat × List CouponRow :=
  ((coupons.filter (couponDisableMatch code)).length,
   coupons.map (fun c =>
     if couponDisableMatch code c then
       { c with used_count := 1, status := "DISABLED", updated_at := now }
     else c))

/-- User row fields written by the activation UPDATE. -/
def activatedUser (now : String) (u : UserRow) : UserRow :=
  { u with status := "ACTIVE", activated_at := some now, updated_at := now }

def activate_user_in_tx (uid now : String) (users : List UserRow) : List UserRow :=
  users.map (fun u => if u.user_id == uid then activatedUser now u else u)

def newPendingUser (uid now : String) : UserRow :=
  { user_id := uid, email := none, status := "PENDING_COUPON", activated_at := none,
    created_at := now, updated_at := now }

structure RedeemResult where
  already_activated : Bool
  coupon_redeemed : Bool
  granted_credits : Int
  balance : Int
deriving Repr, DecidableEq

/-- Users table after the ensure-row step at the top of the redeem
transaction: a missing user row is inserted as PENDING_COUPON. -/
def ensured_users (uid now : String) (users : List UserRow) : List UserRow :=
  match find_user uid users with
  | none => users ++ [newPendingUser uid now]
  | some _ => users

/-- The already_activated flag computed from the pre-transaction user
row. -/
def already_flag (uid : String) (users : List UserRow) : Bool :=
  match find_user uid users with
  | none => false
  | some u => pyUpper u.status == "ACTIVE" || u.activated_at.isSome

def redeemEntry (uid normalized now : String) (credits : Int) (entry_id : Nat) : LedgerEntry :=
  { entry_id := entry_id
    user_id := uid
    delta := credits
    reason := "COUPON_REDEEM"
    job_id := none
    idempotency_key := "coupon:" ++ normalized
    created_at := now }

/-- Committed state of a successful redemption. -/
def redeemCommit (uid rawCode now : String) (credits : Int) (db : BillingDB) : BillingDB :=
  { users := activate_user_in_tx uid now (ensured_users uid now db.users)
    coupons := (coupon_conditional_disable (normalize_code rawCode) now db.coupons).snd
    ledger := (insert_or_ignore
      (redeemEntry uid (normalize_code rawCode) now credits db.next_entry_id) db.ledger).snd
    next_entry_id := db.next_entry_id + 1 }

/-- Embedding of redeem_coupon_code.  The now argument is the timestamp
string written into rows; nowT is the same instant as the integer the
expiry comparison uses. -/
def redeem_coupon_code (uid rawCode now : String) (nowT : Int) (db : BillingDB) :
    Except RepoError (RedeemResult × BillingDB) :=
  if normalize_code rawCode == "" then
    Except.error (RepoError.valueError "coupon code cannot be empty")
  else
    match find_coupon (normalize_code rawCode) db.coupons with
    | none => Except.error (RepoError.lookupError "COUPON_CODE_INVALID")
    | some c =>
      match assert_coupon_usable c nowT with
      | some e => Except.error e
      | none =>
        if c.credits ≤ 0 then
          Except.error (RepoError.lookupError "COUPON_CODE_INVALID")
        else if (coupon_conditional_disable (normalize_code rawCode) now db.coupons).fst == 0 then
          Except.error (RepoError.lookupError "COUPON_CODE_EXHAUSTED")
        else if (insert_or_ignore
            (redeemEntry uid (normalize_code rawCode) now c.credits db.next_entry_id)
            db.ledger).fst == 0 then
          Except.error (RepoError.lookupError "COUPON_CODE_EXHAUSTED")
        else
          Except.ok
            ({ already_activated := already_flag uid db.users, coupon_redeemed := true,
               granted_credits := c.credits,
               balance := balance_in_tx uid (redeemCommit uid rawCode now c.credits db).ledger },
             redeemCommit uid rawCode now c.credits db)

/-- The repository operations a caller can interleave, with the
caller-supplied arguments. -/
inductive BillingOp where
  | consume (uid jid now : String)
  | redeem (uid rawCode now : String) (nowT : Int)

/-- A raised error rolls the transaction back: the state is unchanged. -/
def applyBillingOp (db : BillingDB) : BillingOp → BillingDB
  | BillingOp.consume uid jid now =>
    match consume_step1_credit uid jid now db with
    | Except.ok res => res.snd
    | Except.error _ => db
  | BillingOp.redeem uid rawCode now nowT =>
    match redeem_coupon_code uid rawCode now nowT db with
    | Except.ok res => res.snd
    | Except.error _ => db

def runBillingOps (db : BillingDB) (ops : List BillingOp) : BillingDB :=
  ops.foldl applyBillingOp db

end Billing

namespace Billing

/-! ### Ledger invariants -/

def keyNodup (db : BillingDB) : Prop :=
  (db.ledger.map (fun e => e.idempotency_key)).Nodup

/-- Every JOB_STEP1_SUCCESS entry is a minus-one debit carrying the
step1 idempotency key of its job. -/
def step1Discipline (db : BillingDB) : Prop :=
  ∀ e ∈ db.ledger, e.reason = "JOB_STEP1_SUCCESS" →
    e.delta = -1 ∧ ∃ j, e.job_id = some j ∧ e.idempotency_key = step1Key j

def balancesNonneg (db : BillingDB) : Prop :=
  ∀ uid, 0 ≤ balance_in_tx uid db.ledger

def LedgerInv (db : BillingDB) : Prop :=
  keyNodup db ∧ step1Discipline db ∧ balancesNonneg db

theorem balance_append (uid : String) (ledger : List LedgerEntry) (e : LedgerEntry) :
    balance_in_tx uid (ledger ++ [e]) =
      balance_in_tx uid ledger + (if (e.user_id == uid) = true then e.delta else 0) := by
  unfold balance_in_tx
  rw [List.filter_append]
  by_cases hc : (e.user_id == uid) = true <;>
    simp [hc]

theorem ledgerHasKey_false_iff (key : String) (ledger : List LedgerEntry) :
    ledgerHasKey key ledger = false ↔ ∀ e ∈ ledger, e.idempotency_key ≠ key := by
  unfold ledgerHasKey
  simp

theorem keyNodup_append {db : BillingDB} (e : LedgerEntry)
    (hnd : keyNodup db) (habs : ∀ x ∈ db.ledger, x.idempotency_key ≠ e.idempotency_key) :
    ((db.ledger ++ [e]).map (fun x => x.idempotency_key)).Nodup := by
  rw [List.map_append, List.nodup_append]
  refine ⟨hnd, by simp, ?_⟩
  intro a ha
  obtain ⟨x, hx, rfl⟩ := List.mem_map.mp ha
  simp only [List.map_cons, List.map_nil, List.mem_singleton]
  exact habs x hx

/-! ### Inversion of consume_step1_credit -/

theorem consume_ok_inv (uid jid now : String) (db : BillingDB)
    (res : (Bool × Int) × BillingDB)
    (h : consume_step1_credit uid jid now db = Except.ok res) :
    (ledgerHasKey (step1Key jid) db.ledger = true ∧ res.snd = db) ∨
    (ledgerHasKey (step1Key jid) db.ledger = false ∧
      1 ≤ balance_in_tx uid db.ledger ∧
      res.snd = { db with
        ledger := db.ledger ++
          [{ entry_id := db.next_entry_id, user_id := uid, delta := -1,
             reason := "JOB_STEP1_SUCCESS", job_id := some jid,
             idempotency_key := step1Key jid, created_at := now }],
        next_entry_id := db.next_entry_id + 1 }) := by
  unfold consume_step1_credit at h
  by_cases hkey : ledgerHasKey (step1Key jid) db.ledger = true
  · left
    simp only [hkey, if_true] at h
    cases h
    exact ⟨hkey, rfl⟩
  · right
    have hkey2 : ledgerHasKey (step1Key jid) db.ledger = false := by
      simpa using hkey
    simp only [hkey2, Bool.false_eq_true, if_false] at h
    by_cases hbal : balance_in_tx uid db.ledger < 1
    · simp only [hbal, if_true] at h
      cases h
    · simp only [hbal, if_false] at h
      simp only [insert_or_ignore, hkey2, Bool.false_eq_true, if_false] at h
      simp only [Nat.reduceBEq] at h
      cases h
      refine ⟨hkey2, by omega, rfl⟩

theorem consume_err_inv (uid jid now : String) (db : BillingDB) (e : RepoError)
    (h : consume_step1_credit uid jid now db = Except.error e) :
    e = RepoError.lookupError "INSUFFICIENT_CREDITS" ∧
      ledgerHasKey (step1Key jid) db.ledger = false ∧
      balance_in_tx uid db.ledger < 1 := by
  unfold consume_step1_credit at h
  by_cases hkey : ledgerHasKey (step1Key jid) db.ledger = true
  · simp only [hkey, if_true] at h
    cases h
  · have hkey2 : ledgerHasKey (step1Key jid) db.ledger = false := by
      simpa using hkey
    simp only [hkey2, Bool.false_eq_true, if_false] at h
    by_cases hbal : balance_in_tx uid db.ledger < 1
    · simp only [hbal, if_true] at h
      cases h
      exact ⟨rfl, hkey2, hbal⟩
    · simp only [hbal, if_false] at h
      simp only [insert_or_ignore, hkey2, Bool.false_eq_true, if_false] at h
      simp only [Nat.reduceBEq] at h
      cases h

end Billing

namespace Billing

/-! ### Inversion and characterization of redeem_coupon_code -/

theorem redeem_ok_inv (uid raw now : String) (nowT : Int) (db : BillingDB)
    (res : RedeemResult × BillingDB)
    (h : redeem_coupon_code uid raw now nowT db = Except.ok res) :
    normalize_code raw ≠ "" ∧
    ∃ c, find_coupon (normalize_code raw) db.coupons = some c ∧
      assert_coupon_usable c nowT = none ∧ 0 < c.credits ∧
      1 ≤ (coupon_conditional_disable (normalize_code raw) now db.coupons).fst ∧
      ledgerHasKey ("coupon:" ++ normalize_code raw) db.ledger = false ∧
      res.snd = redeemCommit uid raw now c.credits db := by
  unfold redeem_coupon_code at h
  by_cases hne : (normalize_code raw == "") = true
  · simp only [hne, if_true] at h
    cases h
  · have hne2 : (normalize_code raw == "") = false := by simpa using hne
    simp only [hne2, Bool.false_eq_true, if_false] at h
    cases hfc : find_coupon (normalize_code raw) db.coupons with
    | none => rw [hfc] at h; cases h
    | some c =>
      rw [hfc] at h
      dsimp only at h
      cases hass : assert_coupon_usable c nowT with
      | some e0 => rw [hass] at h; cases h
      | none =>
        rw [hass] at h
        dsimp only at h
        by_cases hcred : c.credits ≤ 0
        · simp only [hcred, if_true] at h
          cases h
        · simp only [hcred, if_false] at h
          by_cases hresv :
              ((coupon_conditional_disable (normalize_code raw) now db.coupons).fst == 0) = true
          · simp only [hresv, if_true] at h
            cases h
          · have hresv2 :
                ((coupon_conditional_disable (normalize_code raw) now db.coupons).fst == 0) =
                  false := by simpa using hresv
            simp only [hresv2, Bool.false_eq_true, if_false] at h
            by_cases hkey :
                ledgerHasKey ("coupon:" ++ normalize_code raw) db.ledger = true
            · have : (insert_or_ignore
                  (redeemEntry uid (normalize_code raw) now c.credits db.next_entry_id)
                  db.ledger).fst = 0 := by
                simp [insert_or_ignore, redeemEntry, hkey]
              simp only [this, Nat.reduceBEq, if_true] at h
              cases h
            · have hkey2 :
                  ledgerHasKey ("coupon:" ++ normalize_code raw) db.ledger = false := by
                simpa using hkey
              have hins : (insert_or_ignore
                  (redeemEntry uid (normalize_code raw) now c.credits db.next_entry_id)
                  db.ledger).fst = 1 := by
                simp [insert_or_ignore, redeemEntry, hkey2]
              simp only [hins, Nat.reduceBEq, Bool.false_eq_true, if_false] at h
              cases h
              refine ⟨by simpa using hne2, c, rfl, hass, by omega, ?_, hkey2, rfl⟩
              have : (coupon_conditional_disable (normalize_code raw) now db.coupons).fst ≠ 0 := by
                intro hc
                rw [hc] at hresv2
                simp at hresv2
              omega

theorem consume_coupons_eq (uid jid now : String) (db : BillingDB)
    (res : (Bool × Int) × BillingDB)
    (h : consume_step1_credit uid jid now db = Except.ok res) :
    res.snd.coupons = db.coupons := by
  rcases consume_ok_inv uid jid now db res h with ⟨_, heq⟩ | ⟨_, _, heq⟩ <;> rw [heq]

end Billing

namespace Billing

/-! ### Uniqueness counting from the UNIQUE idempotency_key column -/

theorem filter_length_le_one_of_key (p : LedgerEntry → Bool) (k : String) :
    ∀ l : List LedgerEntry,
      (l.map (fun e => e.idempotency_key)).Nodup →
      (∀ e ∈ l, p e = true → e.idempotency_key = k) →
      (l.filter p).length ≤ 1 := by
  intro l
  induction l with
  | nil => intro _ _; simp
  | cons a l ih =>
    intro hnd hp
    have hnd2 : (∀ x ∈ l, ¬x.idempotency_key = a.idempotency_key) ∧
        (l.map (fun e => e.idempotency_key)).Nodup := by simpa using hnd
    cases hpa : p a with
    | false =>
      simp only [List.filter_cons, hpa, Bool.false_eq_true, if_false]
      exact ih hnd2.2 (fun e he hpe => hp e (List.mem_cons_of_mem a he) hpe)
    | true =>
      simp only [List.filter_cons, hpa, if_true]
      have hnil : l.filter p = [] := by
        rw [List.eq_nil_iff_forall_not_mem]
        intro x hx
        have hxl := List.mem_of_mem_filter hx
        have hpx := List.of_mem_filter hx
        have hxk : x.idempotency_key = k := hp x (List.mem_cons_of_mem a hxl) hpx
        have hak : a.idempotency_key = k := hp a (List.mem_cons_self a l) hpa
        exact hnd2.1 x hxl (by rw [hxk, hak])
      rw [hnil]
      simp

/-! ### Invariant preservation for the billing operations -/

theorem LedgerInv_consume (uid jid now : String) (db : BillingDB) (h : LedgerInv db) :
    LedgerInv (applyBillingOp db (BillingOp.consume uid jid now)) := by
  obtain ⟨hnd, hdisc, hbal⟩ := h
  simp only [applyBillingOp]
  cases hres : consume_step1_credit uid jid now db with
  | error e => exact ⟨hnd, hdisc, hbal⟩
  | ok res =>
    dsimp only
    rcases consume_ok_inv uid jid now db res hres with ⟨_, heq⟩ | ⟨hkey, hb, heq⟩
    · rw [heq]; exact ⟨hnd, hdisc, hbal⟩
    · rw [heq]
      refine ⟨?_, ?_, ?_⟩
      · exact keyNodup_append _ hnd (by
          intro x hx
          exact (ledgerHasKey_false_iff _ _).mp hkey x hx)
      · intro e he hre
        rcases List.mem_append.mp he with he | he
        · exact hdisc e he hre
        · simp at he
          subst he
          exact ⟨rfl, jid, rfl, rfl⟩
      · intro uid2
        rw [balance_append]
        by_cases hu : (uid == uid2) = true
        · have huid : uid = uid2 := by simpa using hu
          subst huid
          have := hbal uid
          simp only [hu]
          simp only [if_true]
          omega
        · simp only [hu, Bool.false_eq_true, if_false, add_zero]
          exact hbal uid2

theorem LedgerInv_redeem (uid raw now : String) (nowT : Int) (db : BillingDB)
    (h : LedgerInv db) :
    LedgerInv (applyBillingOp db (BillingOp.redeem uid raw now nowT)) := by
  obtain ⟨hnd, hdisc, hbal⟩ := h
  simp only [applyBillingOp]
  cases hres : redeem_coupon_code uid raw now nowT db with
  | error e => exact ⟨hnd, hdisc, hbal⟩
  | ok res =>
    dsimp only
    obtain ⟨hne, c, hfc, hass, hcred, hresv, hkey, heq⟩ :=
      redeem_ok_inv uid raw now nowT db res hres
    rw [heq]
    have hledger : (redeemCommit uid raw now c.credits db).ledger =
        db.ledger ++ [redeemEntry uid (normalize_code raw) now c.credits db.next_entry_id] := by
      simp [redeemCommit, insert_or_ignore, redeemEntry, hkey]
    refine ⟨?_, ?_, ?_⟩
    · show keyNodup (redeemCommit uid raw now c.credits db)
      unfold keyNodup
      rw [hledger]
      exact keyNodup_append _ hnd (by
        intro x hx
        have := (ledgerHasKey_false_iff _ _).mp hkey x hx
        simpa [redeemEntry] using this)
    · intro e he hre
      rw [hledger] at he
      rcases List.mem_append.mp he with he | he
      · exact hdisc e he hre
      · simp at he
        subst he
        simp [redeemEntry] at hre
    · intro uid2
      rw [hledger, balance_append]
      by_cases hu : ((redeemEntry uid (normalize_code raw) now c.credits
          db.next_entry_id).user_id == uid2) = true
      · simp only [hu, if_true]
        have h1 := hbal uid2
        simp only [redeemEntry] at *
        omega
      · simp only [hu, Bool.false_eq_true, if_false, add_zero]
        exact hbal uid2

theorem LedgerInv_apply (db : BillingDB) (op : BillingOp) (h : LedgerInv db) :
    LedgerInv (applyBillingOp db op) := by
  cases op with
  | consume uid jid now => exact LedgerInv_consume uid jid now db h
  | redeem uid raw now nowT => exact LedgerInv_redeem uid raw now nowT db h

theorem LedgerInv_run (db : BillingDB) (ops : List BillingOp) (h : LedgerInv db) :
    LedgerInv (runBillingOps db ops) := by
  unfold runBillingOps
  induction ops generalizing db with
  | nil => exact h
  | cons op rest ih => exact ih _ (LedgerInv_apply db op h)

end Billing

namespace Billing

/-! ### One redemption per coupon code -/

/-- The coupon with this code is burnt: its used_count has reached 1. -/
def couponUsedOnce (code : String) (db : BillingDB) : Prop :=
  ∀ c ∈ db.coupons, c.code = code → 1 ≤ c.used_count

/-- A row for this code exists in the coupons table. -/
def couponPresent (code : String) (db : BillingDB) : Prop :=
  (find_coupon code db.coupons).isSome = true

theorem find_coupon_map (code : String) (g : CouponRow → CouponRow)
    (hg : ∀ c, (g c).code = c.code) :
    ∀ l : List CouponRow, find_coupon code (l.map g) = (find_coupon code l).map g := by
  intro l
  induction l with
  | nil => simp [find_coupon]
  | cons c cs ih =>
    simp only [find_coupon, List.map_cons, List.find?]
    by_cases hc : (c.code == code) = true
    · have : ((g c).code == code) = true := by rw [hg]; exact hc
      rw [this, hc]
      rfl
    · have hc2 : (c.code == code) = false := by simpa using hc
      have : ((g c).code == code) = false := by rw [hg]; exact hc2
      rw [this, hc2]
      exact ih

theorem redeem_coupons_shape (uid raw now : String) (nowT : Int) (db : BillingDB)
    (res : RedeemResult × BillingDB)
    (h : redeem_coupon_code uid raw now nowT db = Except.ok res) :
    res.snd.coupons = db.coupons.map (fun c =>
      if couponDisableMatch (normalize_code raw) c then
        { c with used_count := 1, status := "DISABLED", updated_at := now }
      else c) := by
  obtain ⟨_, c, _, _, _, _, _, heq⟩ := redeem_ok_inv uid raw now nowT db res h
  rw [heq]
  rfl

theorem usedOnce_apply (code : String) (db : BillingDB) (op : BillingOp)
    (h : couponUsedOnce code db) : couponUsedOnce code (applyBillingOp db op) := by
  cases op with
  | consume uid jid now =>
    simp only [applyBillingOp]
    cases hres : consume_step1_credit uid jid now db with
    | error e => exact h
    | ok res =>
      dsimp only
      unfold couponUsedOnce
      rw [consume_coupons_eq uid jid now db res hres]
      exact h
  | redeem uid raw now nowT =>
    simp only [applyBillingOp]
    cases hres : redeem_coupon_code uid raw now nowT db with
    | error e => exact h
    | ok res =>
      dsimp only
      intro c hc hcode
      rw [redeem_coupons_shape uid raw now nowT db res hres] at hc
      obtain ⟨c0, hc0, rfl⟩ := List.mem_map.mp hc
      by_cases hm : couponDisableMatch (normalize_code raw) c0
      · simp [hm]
      · simp only [hm, Bool.false_eq_true, if_false] at hcode ⊢
        exact h c0 hc0 hcode

theorem present_apply (code : String) (db : BillingDB) (op : BillingOp)
    (h : couponPresent code db) : couponPresent code (applyBillingOp db op) := by
  cases op with
  | consume uid jid now =>
    simp only [applyBillingOp]
    cases hres : consume_step1_credit uid jid now db with
    | error e => exact h
    | ok res =>
      dsimp only
      unfold couponPresent
      rw [consume_coupons_eq uid jid now db res hres]
      exact h
  | redeem uid raw now nowT =>
    simp only [applyBillingOp]
    cases hres : redeem_coupon_code uid raw now nowT db with
    | error e => exact h
    | ok res =>
      dsimp only
      unfold couponPresent
      rw [redeem_coupons_shape uid raw now nowT db res hres]
      rw [find_coupon_map code _ (by
        intro c
        by_cases hm : couponDisableMatch (normalize_code raw) c <;> simp [hm])]
      unfold couponPresent at h
      cases hfc : find_coupon code db.coupons with
      | none => rw [hfc] at h; simp at h
      | some c => simp

theorem usedOnce_run (code : String) (db : BillingDB) (ops : List BillingOp)
    (h : couponUsedOnce code db) : couponUsedOnce code (runBillingOps db ops) := by
  unfold runBillingOps
  induction ops generalizing db with
  | nil => exact h
  | cons op rest ih => exact ih _ (usedOnce_apply code db op h)

theorem present_run (code : String) (db : BillingDB) (ops : List BillingOp)
    (h : couponPresent code db) : couponPresent code (runBillingOps db ops) := by
  unfold runBillingOps
  induction ops generalizing db with
  | nil => exact h
  | cons op rest ih => exact ih _ (present_apply code db op h)

theorem redeem_exhausted_of_usedOnce (uid raw now : String) (nowT : Int) (db : BillingDB)
    (hne : normalize_code raw ≠ "")
    (hpres : couponPresent (normalize_code raw) db)
    (hused : couponUsedOnce (normalize_code raw) db) :
    redeem_coupon_code uid raw now nowT db =
      Except.error (RepoError.lookupError "COUPON_CODE_EXHAUSTED") := by
  unfold couponPresent at hpres
  cases hfc : find_coupon (normalize_code raw) db.coupons with
  | none => rw [hfc] at hpres; simp at hpres
  | some c =>
    have hcmem : c ∈ db.coupons := List.mem_of_find?_eq_some hfc
    have hccode : c.code = normalize_code raw := by
      have := List.find?_some hfc
      simpa using this
    have hcu : 1 ≤ c.used_count := hused c hcmem hccode
    have hass : assert_coupon_usable c nowT =
        some (RepoError.lookupError "COUPON_CODE_EXHAUSTED") := by
      unfold assert_coupon_usable
      simp [hcu]
    have hne2 : (normalize_code raw == "") = false := by simpa using hne
    unfold redeem_coupon_code
    rw [hne2]
    simp only [Bool.false_eq_true, if_false]
    rw [hfc]
    dsimp only
    rw [hass]

end Billing

namespace Billing

/-! ### Forward characterization of a successful redemption -/

theorem redeem_success_spec (uid raw now : String) (nowT : Int) (db : BillingDB)
    (c : CouponRow)
    (hne : normalize_code raw ≠ "")
    (hfc : find_coupon (normalize_code raw) db.coupons = some c)
    (hass : assert_coupon_usable c nowT = none)
    (hstatus : c.status = "ACTIVE")
    (hused : c.used_count = 0)
    (hcred : 0 < c.credits)
    (hkey : ledgerHasKey ("coupon:" ++ normalize_code raw) db.ledger = false) :
    redeem_coupon_code uid raw now nowT db =
      Except.ok
        ({ already_activated := already_flag uid db.users, coupon_redeemed := true,
           granted_credits := c.credits,
           balance := balance_in_tx uid (redeemCommit uid raw now c.credits db).ledger },
         redeemCommit uid raw now c.credits db) := by
  have hne2 : (normalize_code raw == "") = false := by simpa using hne
  have hccode : (c.code == normalize_code raw) = true := by
    have := List.find?_some hfc
    simpa using this
  have hcmem : c ∈ db.coupons := List.mem_of_find?_eq_some hfc
  have hmatch : couponDisableMatch (normalize_code raw) c = true := by
    simp [couponDisableMatch, hccode, hstatus, hused]
  have hresv : ((coupon_conditional_disable (normalize_code raw) now db.coupons).fst == 0)
      = false := by
    have hmem : c ∈ db.coupons.filter (couponDisableMatch (normalize_code raw)) :=
      List.mem_filter.mpr ⟨hcmem, hmatch⟩
    have hne3 : db.coupons.filter (couponDisableMatch (normalize_code raw)) ≠ [] :=
      List.ne_nil_of_mem hmem
    simp [coupon_conditional_disable, List.length_eq_zero, hne3]
  have hins : ((insert_or_ignore
      (redeemEntry uid (normalize_code raw) now c.credits db.next_entry_id)
      db.ledger).fst == 0) = false := by
    simp [insert_or_ignore, redeemEntry, hkey]
  have hcred2 : ¬c.credits ≤ 0 := by omega
  unfold redeem_coupon_code
  rw [hne2]
  simp only [Bool.false_eq_true, if_false]
  rw [hfc]
  dsimp only
  rw [hass]
  dsimp only
  rw [if_neg hcred2]
  rw [hresv]
  simp only [Bool.false_eq_true, if_false]
  rw [hins]
  simp only [Bool.false_eq_true, if_false]

/-! ### User activation inside the transaction -/

theorem find_user_append_none (uid : String) (l1 l2 : List UserRow)
    (h : find_user uid l1 = none) : find_user uid (l1 ++ l2) = find_user uid l2 := by
  unfold find_user at h ⊢
  rw [List.find?_append, h]
  rfl

theorem find_user_ensured_isSome (uid now : String) (users : List UserRow) :
    ∃ u, find_user uid (ensured_users uid now users) = some u := by
  unfold ensured_users
  cases hf : find_user uid users with
  | some u => exact ⟨u, hf⟩
  | none =>
    refine ⟨newPendingUser uid now, ?_⟩
    have hp : ((newPendingUser uid now).user_id == uid) = true := by
      simp [newPendingUser]
    have hone : List.find? (fun u => u.user_id == uid) [newPendingUser uid now] =
        some (newPendingUser uid now) := List.find?_cons_of_pos [] hp
    unfold find_user at hf ⊢
    rw [List.find?_append, hf, hone]
    rfl

theorem find_user_activate (uid now : String) (l : List UserRow) :
    find_user uid (activate_user_in_tx uid now l) =
      (find_user uid l).map (activatedUser now) := by
  induction l with
  | nil => simp [find_user, activate_user_in_tx]
  | cons u us ih =>
    unfold find_user activate_user_in_tx at ih ⊢
    simp only [List.map_cons]
    by_cases hu : (u.user_id == uid) = true
    · rw [if_pos hu]
      have h1 : ((activatedUser now u).user_id == uid) = true := hu
      have e1 : List.find? (fun v => v.user_id == uid)
          (activatedUser now u ::
            List.map (fun w => if (w.user_id == uid) = true then activatedUser now w else w) us) =
          some (activatedUser now u) := List.find?_cons_of_pos _ h1
      have e2 : List.find? (fun v => v.user_id == uid) (u :: us) = some u :=
        List.find?_cons_of_pos _ hu
      rw [e1, e2]
      rfl
    · have hu2 : (u.user_id == uid) = false := by simpa using hu
      rw [if_neg hu]
      have e1 : List.find? (fun v => v.user_id == uid)
          (u :: List.map (fun w => if (w.user_id == uid) = true then activatedUser now w else w) us) =
          List.find? (fun v => v.user_id == uid)
            (List.map (fun w => if (w.user_id == uid) = true then activatedUser now w else w) us) :=
        List.find?_cons_of_neg _ (by simp [hu2])
      have e2 : List.find? (fun v => v.user_id == uid) (u :: us) =
          List.find? (fun v => v.user_id == uid) us :=
        List.find?_cons_of_neg _ (by simp [hu2])
      rw [e1, e2]
      exact ih

theorem redeemCommit_user_active (uid raw now : String) (credits : Int) (db : BillingDB) :
    ∃ u, find_user uid (redeemCommit uid raw now credits db).users = some u ∧
      u.status = "ACTIVE" ∧ u.activated_at = some now := by
  obtain ⟨u0, hu0⟩ := find_user_ensured_isSome uid now db.users
  refine ⟨activatedUser now u0, ?_, rfl, rfl⟩
  show find_user uid (activate_user_in_tx uid now (ensured_users uid now db.users)) = _
  rw [find_user_activate, hu0]
  rfl

/-! ### Coupon row after the commit -/

theorem redeemCommit_coupon_disabled (uid raw now : String) (credits : Int) (db : BillingDB)
    (c : CouponRow)
    (hfc : find_coupon (normalize_code raw) db.coupons = some c)
    (hstatus : c.status = "ACTIVE") (hused : c.used_count = 0) :
    find_coupon (normalize_code raw) (redeemCommit uid raw now credits db).coupons =
      some { c with used_count := 1, status := "DISABLED", updated_at := now } := by
  have hccode : (c.code == normalize_code raw) = true := by
    have := List.find?_some hfc
    simpa using this
  have hmatch : couponDisableMatch (normalize_code raw) c = true := by
    simp [couponDisableMatch, hccode, hstatus, hused]
  show find_coupon (normalize_code raw)
      (db.coupons.map (fun x =>
        if couponDisableMatch (normalize_code raw) x then
          { x with used_count := 1, status := "DISABLED", updated_at := now }
        else x)) = _
  rw [find_coupon_map _ _ (by
    intro x
    by_cases hm : couponDisableMatch (normalize_code raw) x <;> simp [hm])]
  rw [hfc]
  simp [hmatch]

theorem redeemCommit_usedOnce (uid raw now : String) (credits : Int) (db : BillingDB)
    (c : CouponRow)
    (hnd : (db.coupons.map (fun x => x.code)).Nodup)
    (hfc : find_coupon (normalize_code raw) db.coupons = some c)
    (hstatus : c.status = "ACTIVE") (hused : c.used_count = 0) :
    couponUsedOnce (normalize_code raw) (redeemCommit uid raw now credits db) := by
  have hccode : c.code = normalize_code raw := by
    have := List.find?_some hfc
    simpa using this
  have hcmem : c ∈ db.coupons := List.mem_of_find?_eq_some hfc
  intro x hx hcode
  have hx2 : x ∈ (redeemCommit uid raw now credits db).coupons := hx
  have hshape : (redeemCommit uid raw now credits db).coupons =
      db.coupons.map (fun y =>
        if couponDisableMatch (normalize_code raw) y then
          { y with used_count := 1, status := "DISABLED", updated_at := now }
        else y) := rfl
  rw [hshape] at hx2
  obtain ⟨x0, hx0, rfl⟩ := List.mem_map.mp hx2
  by_cases hm : couponDisableMatch (normalize_code raw) x0
  · simp [hm]
  · simp only [hm, Bool.false_eq_true, if_false] at hcode ⊢
    have hx0c : x0 = c := by
      apply List.inj_on_of_nodup_map hnd hx0 hcmem
      rw [hcode, hccode]
    subst hx0c
    have : couponDisableMatch (normalize_code raw) x0 = true := by
      simp [couponDisableMatch, hstatus, hused]
      simpa using hccode
    rw [this] at hm
    simp at hm

theorem redeemCommit_ledger (uid raw now : String) (credits : Int) (db : BillingDB)
    (hkey : ledgerHasKey ("coupon:" ++ normalize_code raw) db.ledger = false) :
    (redeemCommit uid raw now credits db).ledger =
      db.ledger ++ [redeemEntry uid (normalize_code raw) now credits db.next_entry_id] := by
  simp [redeemCommit, insert_or_ignore, redeemEntry, hkey]

end Billing

namespace Billing

def witnessCoupon : CouponRow :=
  { code := "CPN1", credits := 5, used_count := 0, expires_at := CouponExpiry.absent,
    status := "ACTIVE", source := none, created_at := "T0", updated_at := "T0" }

def witnessCouponDB : BillingDB :=
  { users := [], coupons := [witnessCoupon], ledger := [], next_entry_id := 1 }

def witnessGrantEntry : LedgerEntry :=
  { entry_id := 1, user_id := "u1", delta := 5, reason := "COUPON_REDEEM",
    job_id := none, idempotency_key := "coupon:CPN1", created_at := "T0" }

def witnessLedgerDB : BillingDB :=
  { users := [], coupons := [], ledger := [witnessGrantEntry], next_entry_id := 2 }

end Billing

open Billing in
/-- C3: consume_step1_credit returns consumed false and changes nothing
when the step1 idempotency key for the job already exists; raises
INSUFFICIENT_CREDITS and changes nothing when the key is absent and the
balance is below one; otherwise appends exactly one minus-one
JOB_STEP1_SUCCESS entry carrying that key; under the ledger invariants
at most one step1 debit per job ever exists; and no sequence of consume
and redeem operations drives any balance below zero. -/
theorem claim_C3 :
    (∀ (uid jid now : String) (db : BillingDB),
        (ledgerHasKey (step1Key jid) db.ledger = true →
          consume_step1_credit uid jid now db =
            Except.ok ((false, balance_in_tx uid db.ledger), db))
      ∧ (ledgerHasKey (step1Key jid) db.ledger = false →
          balance_in_tx uid db.ledger < 1 →
          consume_step1_credit uid jid now db =
            Except.error (RepoError.lookupError "INSUFFICIENT_CREDITS"))
      ∧ (ledgerHasKey (step1Key jid) db.ledger = false →
          1 ≤ balance_in_tx uid db.ledger →
          consume_step1_credit uid jid now db =
            Except.ok ((true, balance_in_tx uid db.ledger - 1),
              { db with
                ledger := db.ledger ++
                  [{ entry_id := db.next_entry_id, user_id := uid, delta := -1,
                     reason := "JOB_STEP1_SUCCESS", job_id := some jid,
                     idempotency_key := step1Key jid, created_at := now }],
                next_entry_id := db.next_entry_id + 1 })))
  ∧ (∀ (db : BillingDB) (jid : String), keyNodup db → step1Discipline db →
      (db.ledger.filter (fun e =>
        e.reason == "JOB_STEP1_SUCCESS" && e.job_id == some jid)).length ≤ 1)
  ∧ (∀ (db : BillingDB) (ops : List BillingOp), LedgerInv db →
      ∀ uid, 0 ≤ balance_in_tx uid (runBillingOps db ops).ledger) := by
  refine ⟨?_, ?_, ?_⟩
  · intro uid jid now db
    refine ⟨?_, ?_, ?_⟩
    · intro hkey
      simp only [consume_step1_credit, hkey, if_true]
    · intro hkey hbal
      simp only [consume_step1_credit, hkey, Bool.false_eq_true, if_false, hbal, if_true]
    · intro hkey hbal
      have hbal2 : ¬balance_in_tx uid db.ledger < 1 := by omega
      have hself : (uid == uid) = true := by simp
      simp only [consume_step1_credit, hkey, Bool.false_eq_true, if_false, hbal2,
        insert_or_ignore, Nat.reduceBEq, if_true]
      rw [balance_append]
      simp only [hself, if_true]
      rw [Int.sub_eq_add_neg]
  · intro db jid hnd hdisc
    apply filter_length_le_one_of_key _ (step1Key jid) db.ledger hnd
    intro e he hpe
    simp only [Bool.and_eq_true, beq_iff_eq] at hpe
    obtain ⟨_, j, hjob, hkeyeq⟩ := hdisc e he hpe.1
    rw [hjob] at hpe
    have : j = jid := by
      have := hpe.2
      simpa using this
    rw [hkeyeq, this]
  · intro db ops h uid
    exact (LedgerInv_run db ops h).2.2 uid

open Billing in
/-- C3 witness: with a balance of five and no prior debit, the consume
call succeeds and appends the minus-one entry. -/
theorem claim_C3_witness :
    consume_step1_credit "u1" "job_w" "T1" witnessLedgerDB =
      Except.ok ((true, balance_in_tx "u1" witnessLedgerDB.ledger - 1),
        { witnessLedgerDB with
          ledger := witnessLedgerDB.ledger ++
            [{ entry_id := witnessLedgerDB.next_entry_id, user_id := "u1", delta := -1,
               reason := "JOB_STEP1_SUCCESS", job_id := some "job_w",
               idempotency_key := step1Key "job_w", created_at := "T1" }],
          next_entry_id := witnessLedgerDB.next_entry_id + 1 }) :=
  (claim_C3.1 "u1" "job_w" "T1" witnessLedgerDB).2.2 (by decide) (by decide)

open Billing in
/-- C4: a redemption of an unused ACTIVE coupon succeeds exactly as the
conditional update describes: the coupon row flips to used_count 1 and
DISABLED, exactly one ledger entry with key coupon:CODE granting the
credits is appended, and the user becomes ACTIVE; after that success,
every later redemption of the same code, after any interleaving of
consume and redeem operations, raises COUPON_CODE_EXHAUSTED and changes
nothing (errors roll back by construction); and with unique idempotency
keys the ledger never holds two entries for one coupon key, a property
every operation preserves. -/
theorem claim_C4 :
    (∀ (uid raw now : String) (nowT : Int) (db : BillingDB) (c : CouponRow),
       (db.coupons.map (fun x => x.code)).Nodup →
       normalize_code raw ≠ "" →
       find_coupon (normalize_code raw) db.coupons = some c →
       assert_coupon_usable c nowT = none →
       c.status = "ACTIVE" → c.used_count = 0 → 0 < c.credits →
       ledgerHasKey ("coupon:" ++ normalize_code raw) db.ledger = false →
       redeem_coupon_code uid raw now nowT db =
         Except.ok
           ({ already_activated := already_flag uid db.users, coupon_redeemed := true,
              granted_credits := c.credits,
              balance := balance_in_tx uid (redeemCommit uid raw now c.credits db).ledger },
            redeemCommit uid raw now c.credits db)
       ∧ find_coupon (normalize_code raw) (redeemCommit uid raw now c.credits db).coupons =
           some { c with used_count := 1, status := "DISABLED", updated_at := now }
       ∧ (redeemCommit uid raw now c.credits db).ledger =
           db.ledger ++ [redeemEntry uid (normalize_code raw) now c.credits db.next_entry_id]
       ∧ (∃ u, find_user uid (redeemCommit uid raw now c.credits db).users = some u ∧
            u.status = "ACTIVE" ∧ u.activated_at = some now)
       ∧ (∀ (ops : List BillingOp) (uid2 raw2 now2 : String) (nowT2 : Int),
            normalize_code raw2 = normalize_code raw →
            redeem_coupon_code uid2 raw2 now2 nowT2
                (runBillingOps (redeemCommit uid raw now c.credits db) ops) =
              Except.error (RepoError.lookupError "COUPON_CODE_EXHAUSTED")))
  ∧ (∀ (db : BillingDB) (k : String), keyNodup db →
      (db.ledger.filter (fun e => e.idempotency_key == k)).length ≤ 1)
  ∧ (∀ (db : BillingDB) (ops : List BillingOp), LedgerInv db →
      keyNodup (runBillingOps db ops)) := by
  refine ⟨?_, ?_, ?_⟩
  · intro uid raw now nowT db c hnd hne hfc hass hstatus hused hcred hkey
    refine ⟨redeem_success_spec uid raw now nowT db c hne hfc hass hstatus hused hcred hkey,
      redeemCommit_coupon_disabled uid raw now c.credits db c hfc hstatus hused,
      redeemCommit_ledger uid raw now c.credits db hkey,
      redeemCommit_user_active uid raw now c.credits db, ?_⟩
    intro ops uid2 raw2 now2 nowT2 heq
    have husedRun := usedOnce_run (normalize_code raw) _ ops
      (redeemCommit_usedOnce uid raw now c.credits db c hnd hfc hstatus hused)
    have hpres0 : couponPresent (normalize_code raw) (redeemCommit uid raw now c.credits db) := by
      unfold couponPresent
      rw [redeemCommit_coupon_disabled uid raw now c.credits db c hfc hstatus hused]
      rfl
    have hpresRun := present_run (normalize_code raw) _ ops hpres0
    apply redeem_exhausted_of_usedOnce uid2 raw2 now2 nowT2 _
      (by rw [heq]; exact hne) (by rw [heq]; exact hpresRun) (by rw [heq]; exact husedRun)
  · intro db k hnd
    apply filter_length_le_one_of_key _ k db.ledger hnd
    intro e _ hpe
    simpa using hpe
  · intro db ops h
    exact (LedgerInv_run db ops h).1

open Billing in
/-- C4 witness: a concrete coupon CPN1 with five credits is redeemed
from a raw code that normalizes to it; all hypotheses are discharged by
computation. -/
theorem claim_C4_witness :
    redeem_coupon_code "u1" " cpn1 " "T1" 100 witnessCouponDB =
      Except.ok
        ({ already_activated := already_flag "u1" witnessCouponDB.users,
           coupon_redeemed := true,
           granted_credits := witnessCoupon.credits,
           balance := balance_in_tx "u1"
             (redeemCommit "u1" " cpn1 " "T1" witnessCoupon.credits witnessCouponDB).ledger },
         redeemCommit "u1" " cpn1 " "T1" witnessCoupon.credits witnessCouponDB) :=
  (claim_C4.1 "u1" " cpn1 " "T1" 100 witnessCouponDB witnessCoupon
    (by decide) (by decide) (by decide) (by decide) rfl rfl (by decide) (by decide)).1

def JOB_STATUS_CREATED : String := "CREATED"

def JOB_STATUS_UPLOAD_READY : String := "UPLOAD_READY"

def JOB_STATUS_STEP1_RUNNING : String := "STEP1_RUNNING"

def JOB_STATUS_STEP1_READY : String := "STEP1_READY"

def JOB_STATUS_STEP1_CONFIRMED : String := "STEP1_CONFIRMED"

def JOB_STATUS_STEP2_RUNNING : String := "STEP2_RUNNING"

def JOB_STATUS_STEP2_READY : String := "STEP2_READY"

def JOB_STATUS_STEP2_CONFIRMED : String := "STEP2_CONFIRMED"

def JOB_STATUS_SUCCEEDED : String := "SUCCEEDED"

def JOB_STATUS_FAILED : String := "FAILED"

namespace JobStore

/-! ## On-disk job state (web_api/repository.py)

One job directory is modelled by a record of the files repository.py
reads and writes: the parsed job.meta.json (None when the file is
missing or unreadable), the parsed job.error.json, the two confirmation
markers, and existence flags for the conventional artifact locations
plus the manifest slots of job.files.json that point to existing files
(the only thing _normalize_files keeps from a declared slot). -/

inductive JobStatus where
  | CREATED
  | UPLOAD_READY
  | STEP1_RUNNING
  | STEP1_READY
  | STEP1_CONFIRMED
  | STEP2_RUNNING
  | STEP2_READY
  | STEP2_CONFIRMED
  | SUCCEEDED
  | FAILED
deriving Repr, DecidableEq

def statusText : JobStatus → String
  | JobStatus.CREATED => JOB_STATUS_CREATED
  | JobStatus.UPLOAD_READY => JOB_STATUS_UPLOAD_READY
  | JobStatus.STEP1_RUNNING => JOB_STATUS_STEP1_RUNNING
  | JobStatus.STEP1_READY => JOB_STATUS_STEP1_READY
  | JobStatus.STEP1_CONFIRMED => JOB_STATUS_STEP1_CONFIRMED
  | JobStatus.STEP2_RUNNING => JOB_STATUS_STEP2_RUNNING
  | JobStatus.STEP2_READY => JOB_STATUS_STEP2_READY
  | JobStatus.STEP2_CONFIRMED => JOB_STATUS_STEP2_CONFIRMED
  | JobStatus.SUCCEEDED => JOB_STATUS_SUCCEEDED
  | JobStatus.FAILED => JOB_STATUS_FAILED

structure MetaJson where
  job_id : String
  owner_user_id : String
  status : String
  progress : Option Int
  created_at : String
  updated_at : String
deriving Repr, DecidableEq

structure ErrorJson where
  code : String
  message : String
deriving Repr, DecidableEq

structure JobFS where
  meta : Option MetaJson
  error_file : Option ErrorJson
  step1_confirmed_marker : Bool
  step2_confirmed_marker : Bool
  step1_final_json : Bool
  step2_final_topics_file : Bool
  render_output_file : Bool
  input_audio_file : Bool
  input_video_file : Bool
  manifest_video_ok : Bool
  manifest_audio_ok : Bool
  manifest_final_topics_ok : Bool
  manifest_final_video_ok : Bool
deriving Repr, DecidableEq

def parse_status (s : String) : Option JobStatus :=
  if s == JOB_STATUS_CREATED then some JobStatus.CREATED
  else if s == JOB_STATUS_UPLOAD_READY then some JobStatus.UPLOAD_READY
  else if s == JOB_STATUS_STEP1_RUNNING then some JobStatus.STEP1_RUNNING
  else if s == JOB_STATUS_STEP1_READY then some JobStatus.STEP1_READY
  else if s == JOB_STATUS_STEP1_CONFIRMED then some JobStatus.STEP1_CONFIRMED
  else if s == JOB_STATUS_STEP2_RUNNING then some JobStatus.STEP2_RUNNING
  else if s == JOB_STATUS_STEP2_READY then some JobStatus.STEP2_READY
  else if s == JOB_STATUS_STEP2_CONFIRMED then some JobStatus.STEP2_CONFIRMED
  else if s == JOB_STATUS_SUCCEEDED then some JobStatus.SUCCEEDED
  else if s == JOB_STATUS_FAILED then some JobStatus.FAILED
  else none

/-- Embedding of _normalize_meta_status: str(value or "").strip().upper()
then the allow-list check. -/
def normalize_meta_status (v : Option String) : Option JobStatus :=
  parse_status (pyUpper (pyStrip (v.getD "")))

/-- Embedding of _progress_for_status. -/
def progress_for_status : JobStatus → Int
  | JobStatus.CREATED => 0
  | JobStatus.UPLOAD_READY => 10
  | JobStatus.STEP1_RUNNING => 30
  | JobStatus.STEP1_READY => 35
  | JobStatus.STEP1_CONFIRMED => 45
  | JobStatus.STEP2_RUNNING => 60
  | JobStatus.STEP2_READY => 75
  | JobStatus.STEP2_CONFIRMED => 80
  | JobStatus.SUCCEEDED => 100
  | JobStatus.FAILED => 0

/-- Evidence used by _infer_job_status through _normalize_files: a slot
counts when the manifest declares an existing file or the conventional
location exists (audio and video use the manifest value first and the
conventional location as fallback; the outcome for the truth test is the
same disjunction). -/
def files_final_video (fs : JobFS) : Bool :=
  fs.manifest_final_video_ok || fs.render_output_file

def files_final_topics (fs : JobFS) : Bool :=
  fs.manifest_final_topics_ok || fs.step2_final_topics_file

def files_video (fs : JobFS) : Bool :=
  fs.manifest_video_ok || fs.input_video_file

def files_audio (fs : JobFS) : Bool :=
  fs.manifest_audio_ok || fs.input_audio_file

/-- Embedding of _infer_job_status. -/
def infer_job_status (fs : JobFS) : JobStatus :=
  if fs.error_file.isSome then JobStatus.FAILED
  else if files_final_video fs then JobStatus.SUCCEEDED
  else if fs.step2_confirmed_marker then JobStatus.STEP2_CONFIRMED
  else if files_final_topics fs then JobStatus.STEP2_READY
  else if fs.step1_confirmed_marker then JobStatus.STEP1_CONFIRMED
  else if fs.step1_final_json then JobStatus.STEP1_READY
  else if files_video fs || files_audio fs then JobStatus.UPLOAD_READY
  else JobStatus.CREATED

/-- Embedding of _effective_status. -/
def effective_status (ms : Option JobStatus) (inferred : JobStatus) : JobStatus :=
  if ms == some JobStatus.STEP1_RUNNING &&
      (inferred == JobStatus.CREATED || inferred == JobStatus.UPLOAD_READY) then
    JobStatus.STEP1_RUNNING
  else if ms == some JobStatus.STEP2_RUNNING && inferred == JobStatus.STEP1_CONFIRMED then
    JobStatus.STEP2_RUNNING
  else if ms == some JobStatus.FAILED &&
      (inferred == JobStatus.CREATED || inferred == JobStatus.UPLOAD_READY ||
       inferred == JobStatus.STEP1_RUNNING || inferred == JobStatus.STEP2_RUNNING) then
    JobStatus.FAILED
  else inferred

structure JobView where
  job_id : String
  status : JobStatus
  progress : Int
  error : Option ErrorJson
deriving Repr, DecidableEq

def clampProgress (p : Int) : Int := max 0 (min 100 p)

/-- Embedding of get_job. -/
def get_job (fs : JobFS) (owner_user_id : Option String) : Option JobView :=
  match fs.meta with
  | none => none
  | some meta =>
    if (match owner_user_id with
        | some o => !(o == "") && !(meta.owner_user_id == o)
        | none => false) then none
    else
      let inferred := infer_job_status fs
      let ms := normalize_meta_status (some meta.status)
      let status := effective_status ms inferred
      let progress :=
        if ms == some status then
          match meta.progress with
          | some p => clampProgress p
          | none => progress_for_status status
        else progress_for_status status
      let error :=
        match fs.error_file with
        | some e =>
          if pyStrip e.code == "" then none
          else some { code := pyStrip e.code, message := pyStrip e.message }
        | none => none
      some { job_id := meta.job_id, status := status, progress := progress, error := error }

/-- Embedding of get_job_owner_user_id. -/
def get_job_owner_user_id (fs : JobFS) : Option String :=
  match fs.meta with
  | none => none
  | some meta =>
    if pyStrip meta.owner_user_id == "" then none else some (pyStrip meta.owner_user_id)

/-- Embedding of update_job: a silent no-op without a readable meta
file; otherwise the meta rewrite followed by the status-dependent
side writes (confirmation markers, the error file only for FAILED with
a truthy error code, and the error-file unlink for the other statuses). -/
def update_job (fs : JobFS) (status : Option String) (progress : Option Int)
    (error_code : Option String) (error_message : Option String) (now : String) : JobFS :=
  match fs.meta with
  | none => fs
  | some meta =>
    let ns := normalize_meta_status status
    let meta1 :=
      match ns with
      | some s => { meta with status := statusText s }
      | none => meta
    let meta2 :=
      match progress with
      | some p => { meta1 with progress := some (clampProgress p) }
      | none => meta1
    let fs1 := { fs with meta := some { meta2 with updated_at := now } }
    match ns with
    | some JobStatus.STEP1_CONFIRMED => { fs1 with step1_confirmed_marker := true }
    | some JobStatus.STEP2_CONFIRMED => { fs1 with step2_confirmed_marker := true }
    | some JobStatus.FAILED =>
      if (match error_code with | some c => !(c == "") | none => false) then
        let written : ErrorJson :=
          { code := error_code.getD "", message := error_message.getD "" }
        { fs1 with error_file := some written }
      else fs1
    | some _ => { fs1 with error_file := none }
    | none => fs1

/-- Embedding of touch_job. -/
def touch_job (fs : JobFS) (now : String) : JobFS :=
  match fs.meta with
  | none => fs
  | some meta => { fs with meta := some { meta with updated_at := now } }

end JobStore

namespace TasksSvc

/-! ## Worker task execution (web_api/services/tasks.py)

The dispatched stage functions (run_step1, run_step2) drive external
subprocesses, so execute_task is parameterized by the stage outcome: a
normal return or the text of the raised exception.  The queue rows and
the job directory form the worker-visible state. -/

structure WorkerState where
  tasks : TaskQueue.QueueDB
  fs : JobStore.JobFS
deriving Repr, DecidableEq

/-- Embedding of _is_insufficient_credit_error. -/
def is_insufficient_credit_error (msg : String) : Bool :=
  pyContains (pyStrip msg) "额度不足"

/-- Embedding of _public_task_error_message. -/
def public_task_error_message (msg : String) : String :=
  if is_insufficient_credit_error msg then
    (if pyStrip msg == "" then "额度不足，请先兑换邀请码后重试" else pyStrip msg)
  else "任务执行失败，请重试。"

/-- Embedding of execute_task over one claimed task row.  stageError is
none when the dispatched stage function returns normally and carries
str(exc) when it raises. -/
def execute_task (st : WorkerState) (task_id : Nat) (task_type : String)
    (stageError : Option String) (now : String) : WorkerState :=
  if !(task_type == TASK_TYPE_STEP1 || task_type == TASK_TYPE_STEP2) then
    { tasks := TaskQueue.set_task_failed task_id
        ("unsupported task type: " ++ task_type) now st.tasks,
      fs := JobStore.update_job st.fs (some JOB_STATUS_FAILED) none
        (some "INTERNAL_ERROR") (some "unsupported task") now }
  else
    match stageError with
    | none => { st with tasks := TaskQueue.set_task_succeeded task_id now st.tasks }
    | some excMsg =>
      let tasks2 := TaskQueue.set_task_failed task_id excMsg now st.tasks
      if task_type == TASK_TYPE_STEP1 && is_insufficient_credit_error excMsg then
        { tasks := tasks2,
          fs := JobStore.update_job st.fs (some JOB_STATUS_UPLOAD_READY)
            (some PROGRESS_UPLOAD_READY) (some "INVALID_STEP_STATE")
            (some (public_task_error_message excMsg)) now }
      else
        { tasks := tasks2,
          fs := JobStore.update_job st.fs (some JOB_STATUS_FAILED) none
            (some "INTERNAL_ERROR") (some (public_task_error_message excMsg)) now }

/-- Embedding of queue_job_task: enqueue then advance the job meta to
the running status of the task type. -/
def queue_job_task (q : TaskQueue.QueueDB) (fs : JobStore.JobFS)
    (job_id task_type now : String) :
    Except String (Nat × TaskQueue.QueueDB × JobStore.JobFS) :=
  if task_type == TASK_TYPE_STEP1 then
    match TaskQueue.enqueue_task job_id task_type "\x7b\x7d" now q with
    | Except.error e => Except.error e
    | Except.ok (tid, q2) =>
      Except.ok (tid, q2,
        JobStore.update_job fs (some JOB_STATUS_STEP1_RUNNING)
          (some PROGRESS_STEP1_RUNNING) none none now)
  else if task_type == TASK_TYPE_STEP2 then
    match TaskQueue.enqueue_task job_id task_type "\x7b\x7d" now q with
    | Except.error e => Except.error e
    | Except.ok (tid, q2) =>
      Except.ok (tid, q2,
        JobStore.update_job fs (some JOB_STATUS_STEP2_RUNNING)
          (some PROGRESS_STEP2_RUNNING) none none now)
  else Except.error ("unsupported task type: " ++ task_type)

/-- Embedding of has_available_credits (web_api/services/billing.py). -/
def has_available_credits (uid : String) (required : Int) (db : Billing.BillingDB) : Bool :=
  Billing.get_credit_balance uid db ≥ max 1 required

/-- Embedding of the credit gate at the start of run_step1
(web_api/services/step1.py, before the transcribe call): resolve the
job owner, then require a balance of at least one; the RuntimeError
texts are the error values.  The ASR and auto-edit subprocess calls
that follow a passed gate are external collaborators and are not
modelled (execute_task takes their outcome as an argument). -/
def run_step1_credit_gate (fs : JobStore.JobFS) (billing : Billing.BillingDB) :
    Except String Unit :=
  match JobStore.get_job_owner_user_id fs with
  | none => Except.error "job owner not found"
  | some owner =>
    if !(has_available_credits owner 1 billing) then
      Except.error "额度不足，请先兑换邀请码后重试"
    else Except.ok ()

end TasksSvc

namespace Routes

/-! ## The step1_run endpoint (web_api/api/routes.py)

load_job_or_404 followed by require_status and queue_job_task.  The
billing database is part of the server state so that the absence of any
balance read in this handler is visible in the statements. -/

structure ApiState where
  fs : JobStore.JobFS
  queue : TaskQueue.QueueDB
  billing : Billing.BillingDB
deriving Repr, DecidableEq

inductive ApiErr where
  | notFound (message : String)
  | invalidStepState (message : String)
deriving Repr, DecidableEq

/-- Embedding of the step1_run handler. -/
def step1_run (st : ApiState) (job_id uid now : String) :
    Except ApiErr (Bool × ApiState) :=
  match JobStore.get_job st.fs (some uid) with
  | none => Except.error (ApiErr.notFound "job not found")
  | some job =>
    if !(job.status == JobStore.JobStatus.UPLOAD_READY) then
      Except.error (ApiErr.invalidStepState
        ("current status=" ++ JobStore.statusText job.status ++
          " expected in [UPLOAD_READY]"))
    else
      match TasksSvc.queue_job_task st.queue st.fs job_id TASK_TYPE_STEP1 now with
      | Except.error e => Except.error (ApiErr.invalidStepState e)
      | Except.ok (_, q2, fs2) =>
        Except.ok (true, { st with queue := q2, fs := fs2 })

end Routes

namespace JobStore

theorem infer_not_running (fs : JobFS) :
    infer_job_status fs ≠ JobStatus.STEP1_RUNNING ∧
      infer_job_status fs ≠ JobStatus.STEP2_RUNNING := by
  unfold infer_job_status
  split_ifs <;> simp

theorem effective_failed (inferred : JobStatus) :
    effective_status (some JobStatus.FAILED) inferred =
      (if inferred = JobStatus.CREATED ∨ inferred = JobStatus.UPLOAD_READY ∨
          inferred = JobStatus.STEP1_RUNNING ∨ inferred = JobStatus.STEP2_RUNNING
       then JobStatus.FAILED else inferred) := by
  cases inferred <;> rfl

theorem get_job_status (fs : JobFS) (meta : MetaJson) (h : fs.meta = some meta) :
    (get_job fs none).map (fun v => v.status) =
      some (effective_status (normalize_meta_status (some meta.status))
        (infer_job_status fs)) := by
  unfold get_job
  rw [h]
  rfl

/-- Example state for claim C7: the meta file says FAILED, the error
file is absent and step1/final_step1.json exists. -/
def cexC7FS : JobFS :=
  { meta := some { job_id := "job_c7", owner_user_id := "u1", status := "FAILED",
                   progress := some 0, created_at := "T0", updated_at := "T0" },
    error_file := none,
    step1_confirmed_marker := false, step2_confirmed_marker := false,
    step1_final_json := true, step2_final_topics_file := false,
    render_output_file := false, input_audio_file := false, input_video_file := false,
    manifest_video_ok := false, manifest_audio_ok := false,
    manifest_final_topics_ok := false, manifest_final_video_ok := false }

/-- Example state for claim C8: only a video upload is present. -/
def cexC8FS : JobFS :=
  { meta := some { job_id := "job_c8", owner_user_id := "u1", status := "CREATED",
                   progress := some 0, created_at := "T0", updated_at := "T0" },
    error_file := none,
    step1_confirmed_marker := false, step2_confirmed_marker := false,
    step1_final_json := false, step2_final_topics_file := false,
    render_output_file := false, input_audio_file := false, input_video_file := true,
    manifest_video_ok := false, manifest_audio_ok := false,
    manifest_final_topics_ok := false, manifest_final_video_ok := false }

/-- Spec reading of claim C8: the inference precedence exactly as the
claim words it, with evidence limited to the conventional files it
names (job.error.json, render/output.mp4, the markers, the two final
JSON files, and audio under input/). -/
def claimed_infer (fs : JobFS) : JobStatus :=
  if fs.error_file.isSome then JobStatus.FAILED
  else if fs.render_output_file then JobStatus.SUCCEEDED
  else if fs.step2_confirmed_marker then JobStatus.STEP2_CONFIRMED
  else if fs.step2_final_topics_file then JobStatus.STEP2_READY
  else if fs.step1_confirmed_marker then JobStatus.STEP1_CONFIRMED
  else if fs.step1_final_json then JobStatus.STEP1_READY
  else if fs.input_audio_file then JobStatus.UPLOAD_READY
  else JobStatus.CREATED

/-- Example state for claim C10: the job directory has leftovers but
job.meta.json is gone. -/
def cexC10FS : JobFS :=
  { meta := none,
    error_file := none,
    step1_confirmed_marker := true, step2_confirmed_marker := false,
    step1_final_json := true, step2_final_topics_file := false,
    render_output_file := false, input_audio_file := true, input_video_file := false,
    manifest_video_ok := false, manifest_audio_ok := false,
    manifest_final_topics_ok := false, manifest_final_video_ok := false }

end JobStore

open JobStore in
/-- C7 counterexample: a job whose meta records FAILED while the disk
shows step1/final_step1.json and no error file is reconciled to
STEP1_READY by get_job, although STEP1_READY is a non-terminal status;
the claim says every non-terminal inferred status yields FAILED. -/
theorem claim_C7_counterexample :
    infer_job_status cexC7FS = JobStatus.STEP1_READY
    ∧ normalize_meta_status (some "FAILED") = some JobStatus.FAILED
    ∧ (get_job cexC7FS none).map (fun v => v.status) = some JobStatus.STEP1_READY
    ∧ JobStatus.STEP1_READY ≠ JobStatus.FAILED := by
  refine ⟨by decide, by decide, by decide, by decide⟩

open JobStore in
/-- C7 amended: with meta status FAILED, get_job returns FAILED exactly
when the inferred status is CREATED or UPLOAD_READY (the only
non-terminal inferred statuses the reconciliation keeps FAILED for,
since inference never yields a RUNNING status); for every other
inferred status get_job returns the inferred status itself. -/
theorem claim_C7 :
    (∀ fs : JobFS, infer_job_status fs ≠ JobStatus.STEP1_RUNNING ∧
        infer_job_status fs ≠ JobStatus.STEP2_RUNNING)
  ∧ (∀ (fs : JobFS) (meta : MetaJson), fs.meta = some meta →
      normalize_meta_status (some meta.status) = some JobStatus.FAILED →
      (get_job fs none).map (fun v => v.status) =
        some (if infer_job_status fs = JobStatus.CREATED ∨
                 infer_job_status fs = JobStatus.UPLOAD_READY
              then JobStatus.FAILED else infer_job_status fs)) := by
  refine ⟨infer_not_running, ?_⟩
  intro fs meta hmeta hms
  rw [get_job_status fs meta hmeta, hms, effective_failed]
  obtain ⟨h1, h2⟩ := infer_not_running fs
  by_cases hc : infer_job_status fs = JobStatus.CREATED ∨
      infer_job_status fs = JobStatus.UPLOAD_READY
  · rw [if_pos hc, if_pos (by tauto)]
  · rw [if_neg hc, if_neg (by tauto)]

open JobStore in
/-- C7 witness: the amended reconciliation applied to a FAILED meta over
a directory holding step1/final_step1.json. -/
theorem claim_C7_witness :
    (get_job cexC7FS none).map (fun v => v.status) =
      some (if infer_job_status cexC7FS = JobStatus.CREATED ∨
               infer_job_status cexC7FS = JobStatus.UPLOAD_READY
            then JobStatus.FAILED else infer_job_status cexC7FS) :=
  claim_C7.2 cexC7FS
    { job_id := "job_c7", owner_user_id := "u1", status := "FAILED",
      progress := some 0, created_at := "T0", updated_at := "T0" }
    rfl (by decide)

open JobStore in
/-- C8 counterexample: a directory holding only a video under input/ is
inferred UPLOAD_READY by the code, while the precedence written in the
claim (which only accepts audio as upload evidence) ends at CREATED. -/
theorem claim_C8_counterexample :
    infer_job_status cexC8FS = JobStatus.UPLOAD_READY
    ∧ claimed_infer cexC8FS = JobStatus.CREATED
    ∧ JobStatus.UPLOAD_READY ≠ JobStatus.CREATED := by
  refine ⟨by decide, by decide, by decide⟩

open JobStore in
/-- C8 amended: the claimed precedence is exact for directories whose
evidence is limited to the conventional files the claim names (no
manifest-declared artifacts and no video upload); in general the same
precedence runs over manifest-or-conventional evidence with video
counted alongside audio; and a job whose meta says STEP1_RUNNING while
step1/final_step1.json exists (and nothing higher) is returned as
STEP1_READY by get_job, not STEP1_RUNNING. -/
theorem claim_C8 :
    (∀ fs : JobFS,
       fs.manifest_final_video_ok = false → fs.manifest_final_topics_ok = false →
       fs.manifest_video_ok = false → fs.manifest_audio_ok = false →
       fs.input_video_file = false →
       infer_job_status fs = claimed_infer fs)
  ∧ (∀ (fs : JobFS) (meta : MetaJson), fs.meta = some meta →
       normalize_meta_status (some meta.status) = some JobStatus.STEP1_RUNNING →
       fs.step1_final_json = true →
       fs.error_file = none → files_final_video fs = false →
       fs.step2_confirmed_marker = false → files_final_topics fs = false →
       fs.step1_confirmed_marker = false →
       (get_job fs none).map (fun v => v.status) = some JobStatus.STEP1_READY) := by
  constructor
  · intro fs h1 h2 h3 h4 h5
    unfold infer_job_status claimed_infer files_final_video files_final_topics
      files_video files_audio
    rw [h1, h2, h3, h4, h5]
    simp
  · intro fs meta hmeta hms hjson herr hvid hmark2 htop hmark1
    have hinf : infer_job_status fs = JobStatus.STEP1_READY := by
      unfold infer_job_status
      rw [herr, hvid, hmark2, htop, hmark1, hjson]
      simp
    rw [get_job_status fs meta hmeta, hms, hinf]
    rfl

open JobStore in
/-- C8 witness: on a directory holding only step1/final_step1.json the
code inference and the claimed precedence agree (STEP1_READY). -/
theorem claim_C8_witness :
    infer_job_status cexC7FS = claimed_infer cexC7FS :=
  claim_C8.1 cexC7FS rfl rfl rfl rfl rfl

open JobStore in
/-- C10: when job.meta.json is missing, update_job and touch_job return
without writing anything: the whole on-disk state (meta, error file,
confirmation markers, artifacts) is unchanged for every combination of
arguments. -/
theorem claim_C10 :
    ∀ (fs : JobFS) (status : Option String) (progress : Option Int)
      (error_code error_message : Option String) (now now2 : String),
      fs.meta = none →
      update_job fs status progress error_code error_message now = fs ∧
        touch_job fs now2 = fs := by
  intro fs status progress error_code error_message now now2 h
  constructor
  · unfold update_job
    rw [h]
  · unfold touch_job
    rw [h]

open JobStore in
/-- C10 witness: a late FAILED write and a touch on a cleaned-up job
directory leave it untouched. -/
theorem claim_C10_witness :
    update_job cexC10FS (some "FAILED") (some 50) (some "INTERNAL_ERROR")
        (some "late worker write") "T9" = cexC10FS ∧
      touch_job cexC10FS "T8" = cexC10FS :=
  claim_C10 cexC10FS (some "FAILED") (some 50) (some "INTERNAL_ERROR")
    (some "late worker write") "T9" "T8" rfl

namespace JobStore

/-! ### Computed forms of update_job for the statuses the worker writes -/

theorem update_job_upload_ready (fs : JobFS) (meta : MetaJson) (h : fs.meta = some meta)
    (ec em : Option String) (now : String) :
    update_job fs (some JOB_STATUS_UPLOAD_READY) (some PROGRESS_UPLOAD_READY) ec em now =
      { fs with
        meta := some { meta with
          status := JOB_STATUS_UPLOAD_READY
          progress := some 10
          updated_at := now }
        error_file := none } := by
  unfold update_job
  rw [h]
  have hn : normalize_meta_status (some JOB_STATUS_UPLOAD_READY) =
      some JobStatus.UPLOAD_READY := by decide
  simp only [hn]
  rfl

theorem update_job_failed (fs : JobFS) (meta : MetaJson) (h : fs.meta = some meta)
    (code msg now : String) (hcode : (code == "") = false) :
    update_job fs (some JOB_STATUS_FAILED) none (some code) (some msg) now =
      { fs with
        meta := some { meta with
          status := JOB_STATUS_FAILED
          updated_at := now }
        error_file := some { code := code, message := msg } } := by
  unfold update_job
  rw [h]
  have hn : normalize_meta_status (some JOB_STATUS_FAILED) = some JobStatus.FAILED := by decide
  simp only [hn, hcode]
  rfl

theorem update_job_step1_running (fs : JobFS) (meta : MetaJson) (h : fs.meta = some meta)
    (now : String) :
    update_job fs (some JOB_STATUS_STEP1_RUNNING) (some PROGRESS_STEP1_RUNNING) none none now =
      { fs with
        meta := some { meta with
          status := JOB_STATUS_STEP1_RUNNING
          progress := some 11
          updated_at := now }
        error_file := none } := by
  unfold update_job
  rw [h]
  have hn : normalize_meta_status (some JOB_STATUS_STEP1_RUNNING) =
      some JobStatus.STEP1_RUNNING := by decide
  simp only [hn]
  rfl

end JobStore

namespace TasksSvc

/-- Example worker state for claim C5: one RUNNING STEP1 task over a
job whose meta says STEP1_RUNNING. -/
def cexC5State : WorkerState :=
  { tasks :=
      { rows := [{ task_id := 1, job_id := "job_c5", task_type := TASK_TYPE_STEP1,
                   status := TASK_STATUS_RUNNING, payload_json := "\x7b\x7d",
                   error_message := none, worker_id := some "w1",
                   created_at := "T0", updated_at := "T1", started_at := some "T1",
                   finished_at := none }],
        next_id := 2 },
    fs :=
      { meta := some { job_id := "job_c5", owner_user_id := "u1",
                       status := "STEP1_RUNNING", progress := some 30,
                       created_at := "T0", updated_at := "T1" },
        error_file := none,
        step1_confirmed_marker := false, step2_confirmed_marker := false,
        step1_final_json := false, step2_final_topics_file := false,
        render_output_file := false, input_audio_file := true, input_video_file := false,
        manifest_video_ok := false, manifest_audio_ok := true,
        manifest_final_topics_ok := false, manifest_final_video_ok := false } }

end TasksSvc

open TasksSvc TaskQueue JobStore in
/-- C5 counterexample: for the insufficient-credits exception text the
public message equals the raw exception text, and after execute_task the
job directory holds no error file at all (the INVALID_STEP_STATE code
the claim promises is discarded, because update_job persists error
fields only for FAILED); the meta status does revert to UPLOAD_READY. -/
theorem claim_C5_counterexample :
    public_task_error_message "额度不足，请先兑换邀请码后重试" =
      "额度不足，请先兑换邀请码后重试"
    ∧ (execute_task cexC5State 1 TASK_TYPE_STEP1
        (some "额度不足，请先兑换邀请码后重试") "T2").fs.error_file = none
    ∧ ((execute_task cexC5State 1 TASK_TYPE_STEP1
        (some "额度不足，请先兑换邀请码后重试") "T2").fs.meta.map
          (fun m => m.status)) = some JOB_STATUS_UPLOAD_READY := by
  refine ⟨by decide, by decide, by decide⟩

open TasksSvc TaskQueue JobStore in
/-- C5 amended: a normal stage return marks the task SUCCEEDED and
leaves the job alone; a STEP1 failure whose text signals insufficient
credits marks the task FAILED with the raw text and rewrites the meta
to UPLOAD_READY at progress 10 while deleting the error file (the
INVALID_STEP_STATE code and public message passed to update_job are
dropped); every other failure marks the task FAILED with the raw text
and sets the job to FAILED with error file INTERNAL_ERROR and the
public message, which is the fixed neutral sentence whenever the text
does not signal insufficient credits. -/
theorem claim_C5 :
    (∀ (st : WorkerState) (tid : Nat) (ttype now : String),
       (ttype = TASK_TYPE_STEP1 ∨ ttype = TASK_TYPE_STEP2) →
       execute_task st tid ttype none now =
         { st with tasks := set_task_succeeded tid now st.tasks })
  ∧ (∀ (st : WorkerState) (meta : MetaJson) (tid : Nat) (excMsg now : String),
       st.fs.meta = some meta →
       is_insufficient_credit_error excMsg = true →
       execute_task st tid TASK_TYPE_STEP1 (some excMsg) now =
         { tasks := set_task_failed tid excMsg now st.tasks,
           fs := { st.fs with
             meta := some { meta with
               status := JOB_STATUS_UPLOAD_READY
               progress := some 10
               updated_at := now }
             error_file := none } })
  ∧ (∀ (st : WorkerState) (meta : MetaJson) (tid : Nat) (ttype excMsg now : String),
       st.fs.meta = some meta →
       (ttype = TASK_TYPE_STEP1 ∨ ttype = TASK_TYPE_STEP2) →
       (ttype == TASK_TYPE_STEP1 && is_insufficient_credit_error excMsg) = false →
       execute_task st tid ttype (some excMsg) now =
         { tasks := set_task_failed tid excMsg now st.tasks,
           fs := { st.fs with
             meta := some { meta with
               status := JOB_STATUS_FAILED
               updated_at := now }
             error_file := some { code := "INTERNAL_ERROR",
                                  message := public_task_error_message excMsg } } })
  ∧ (∀ excMsg : String, is_insufficient_credit_error excMsg = false →
       public_task_error_message excMsg = "任务执行失败，请重试。") := by
  refine ⟨?_, ?_, ?_, ?_⟩
  · intro st tid ttype now hval
    have hv : (!(ttype == TASK_TYPE_STEP1 || ttype == TASK_TYPE_STEP2)) = false := by
      rcases hval with h | h <;> simp [h]
    unfold execute_task
    rw [hv]
    rfl
  · intro st meta tid excMsg now hmeta hins
    unfold execute_task
    have hcond : (TASK_TYPE_STEP1 == TASK_TYPE_STEP1 &&
        is_insufficient_credit_error excMsg) = true := by
      simp [hins]
    simp only [hcond]
    rw [update_job_upload_ready st.fs meta hmeta]
    rfl
  · intro st meta tid ttype excMsg now hmeta hval hcond
    have hv : (!(ttype == TASK_TYPE_STEP1 || ttype == TASK_TYPE_STEP2)) = false := by
      rcases hval with h | h <;> simp [h]
    unfold execute_task
    rw [hv]
    simp only [Bool.false_eq_true, if_false, hcond]
    rw [update_job_failed st.fs meta hmeta "INTERNAL_ERROR"
      (public_task_error_message excMsg) now (by decide)]
  · intro excMsg hins
    unfold public_task_error_message
    rw [hins]
    rfl

open TasksSvc TaskQueue JobStore in
/-- C5 witness: the insufficient-credits branch evaluated on the
concrete worker state, with the hypotheses discharged by computation. -/
theorem claim_C5_witness :
    execute_task cexC5State 1 TASK_TYPE_STEP1
        (some "额度不足，请先兑换邀请码后重试") "T2" =
      { tasks := set_task_failed 1 "额度不足，请先兑换邀请码后重试" "T2" cexC5State.tasks,
        fs := { cexC5State.fs with
          meta := some { job_id := "job_c5", owner_user_id := "u1",
                         status := JOB_STATUS_UPLOAD_READY, progress := some 10,
                         created_at := "T0", updated_at := "T2" }
          error_file := none } } :=
  claim_C5.2.1 cexC5State
    { job_id := "job_c5", owner_user_id := "u1", status := "STEP1_RUNNING",
      progress := some 30, created_at := "T0", updated_at := "T1" }
    1 "额度不足，请先兑换邀请码后重试" "T2" rfl (by decide)

namespace Routes

/-- Example server state for claim C6: one UPLOAD_READY job owned by
u1, an empty queue, and an empty ledger, so u1 has a balance of 0. -/
def cexC6State : ApiState :=
  { fs :=
      { meta := some { job_id := "job_c6", owner_user_id := "u1",
                       status := "UPLOAD_READY", progress := some 10,
                       created_at := "T0", updated_at := "T0" },
        error_file := none,
        step1_confirmed_marker := false, step2_confirmed_marker := false,
        step1_final_json := false, step2_final_topics_file := false,
        render_output_file := false, input_audio_file := true, input_video_file := false,
        manifest_video_ok := false, manifest_audio_ok := false,
        manifest_final_topics_ok := false, manifest_final_video_ok := false },
    queue := TaskQueue.emptyQueueDB,
    billing := { users := [], coupons := [], ledger := [], next_entry_id := 1 } }

end Routes

namespace TaskQueue

theorem liveCount_pos_of_liveRow {j t : String} {rows : List TaskRow} {ex : TaskRow}
    (h : liveRowForJob j t rows = some ex) : 1 ≤ liveCount j t rows := by
  have hmem := maxByTaskId_mem _ _ h
  unfold liveCount
  exact List.length_pos.mpr (List.ne_nil_of_mem hmem)

end TaskQueue

open Routes TasksSvc TaskQueue JobStore in
/-- C6 counterexample: with the owner balance at zero and the job in
UPLOAD_READY, the endpoint returns accepted (not 409), creates a live
STEP1 queue row and moves the job meta to STEP1_RUNNING: there is no
balance pre-check in the handler. -/
theorem claim_C6_counterexample :
    Billing.get_credit_balance "u1" cexC6State.billing = 0
    ∧ (step1_run cexC6State "job_c6" "u1" "T1").isOk = true
    ∧ liveCount "job_c6" TASK_TYPE_STEP1
        (match step1_run cexC6State "job_c6" "u1" "T1" with
         | Except.ok r => r.snd.queue
         | Except.error _ => cexC6State.queue).rows = 1
    ∧ ((match step1_run cexC6State "job_c6" "u1" "T1" with
        | Except.ok r => r.snd.fs
        | Except.error _ => cexC6State.fs).meta.map
          (fun m : JobStore.MetaJson => m.status)) =
        some JOB_STATUS_STEP1_RUNNING := by
  refine ⟨by decide, by decide, by decide, by decide⟩

open Routes TasksSvc TaskQueue JobStore in
/-- C6 amended: step1_run performs no balance check; whenever the
reconciled job status is UPLOAD_READY it enqueues a STEP1 task (a live
row then exists), rewrites the meta to STEP1_RUNNING via update_job and
returns accepted, whatever the billing state, which it leaves untouched;
the balance is checked only in the worker, where run_step1 raises the
insufficient-credits RuntimeError before invoking the ASR when the
owner balance is below one, a text execute_task recognizes. -/
theorem claim_C6 :
    (∀ (st : ApiState) (job_id uid now : String) (job : JobView),
       WF st.queue →
       get_job st.fs (some uid) = some job →
       job.status = JobStatus.UPLOAD_READY →
       ∃ tid q2,
         enqueue_task job_id TASK_TYPE_STEP1 "\x7b\x7d" now st.queue = Except.ok (tid, q2)
         ∧ step1_run st job_id uid now =
             Except.ok (true,
               { fs := update_job st.fs (some JOB_STATUS_STEP1_RUNNING)
                   (some PROGRESS_STEP1_RUNNING) none none now
                 queue := q2
                 billing := st.billing })
         ∧ 1 ≤ liveCount job_id TASK_TYPE_STEP1 q2.rows)
  ∧ (∀ (fs : JobFS) (billing : Billing.BillingDB) (owner : String),
       get_job_owner_user_id fs = some owner →
       Billing.get_credit_balance owner billing < 1 →
       run_step1_credit_gate fs billing =
         Except.error "额度不足，请先兑换邀请码后重试"
       ∧ is_insufficient_credit_error "额度不足，请先兑换邀请码后重试" = true) := by
  constructor
  · intro st job_id uid now job hwf hjob hst
    have hrun : ∀ q2res,
        enqueue_task job_id TASK_TYPE_STEP1 "\x7b\x7d" now st.queue = Except.ok q2res →
        step1_run st job_id uid now =
          Except.ok (true,
            { fs := update_job st.fs (some JOB_STATUS_STEP1_RUNNING)
                (some PROGRESS_STEP1_RUNNING) none none now
              queue := q2res.snd
              billing := st.billing }) := by
      intro q2res henq
      unfold step1_run
      rw [hjob]
      dsimp only
      have hok : (!(job.status == JobStatus.UPLOAD_READY)) = false := by
        rw [hst]
        rfl
      rw [hok]
      simp only [Bool.false_eq_true, if_false]
      unfold TasksSvc.queue_job_task
      have ht : (TASK_TYPE_STEP1 == TASK_TYPE_STEP1) = true := by rfl
      rw [ht]
      simp only [if_true]
      rw [henq]
    cases hx : liveRowForJob job_id TASK_TYPE_STEP1 st.queue.rows with
    | some ex =>
      have henq := enqueue_existing_spec st.queue job_id TASK_TYPE_STEP1 "\x7b\x7d" now ex
        hwf hx (Or.inl rfl)
      refine ⟨ex.task_id, st.queue, henq, hrun (ex.task_id, st.queue) henq, ?_⟩
      exact liveCount_pos_of_liveRow hx
    | none =>
      have henq := enqueue_new_spec st.queue job_id TASK_TYPE_STEP1 "\x7b\x7d" now
        hwf.2.2 hx (Or.inl rfl)
      refine ⟨st.queue.next_id,
        { rows := st.queue.rows ++
            [newTaskRow st.queue.next_id job_id TASK_TYPE_STEP1 "\x7b\x7d" now],
          next_id := st.queue.next_id + 1 }, henq, hrun _ henq, ?_⟩
      simp only []
      rw [liveCount_append_one, liveCount_eq_zero_of_none hx]
      simp [newTaskRow, liveStatus]
  · intro fs billing owner howner hbal
    unfold run_step1_credit_gate
    rw [howner]
    dsimp only
    have hav : TasksSvc.has_available_credits owner 1 billing = false := by
      unfold TasksSvc.has_available_credits
      simp only [max_self]
      simp only [ge_iff_le, decide_eq_false_iff_not, not_le]
      omega
    rw [hav]
    exact ⟨rfl, by decide⟩

open Routes TasksSvc TaskQueue JobStore in
/-- C6 witness: the amended behavior on the concrete zero-balance
state: the endpoint call succeeds. -/
theorem claim_C6_witness :
    (step1_run cexC6State "job_c6" "u1" "T1").isOk = true := by
  obtain ⟨tid, q2, henq, hrun, hlive⟩ :=
    claim_C6.1 cexC6State "job_c6" "u1" "T1"
      { job_id := "job_c6", status := JobStatus.UPLOAD_READY, progress := 10, error := none }
      (by unfold WF; decide) (by decide) rfl
  rw [hrun]
  rfl

namespace Step2Svc

/-! ## Step2 chapter remapping (web_api/services/step2.py)

Chapters carry the projection the two functions read and write: the
chapter id (untouched) and the line id list.  Integer line ids model
the Python ints after the int(...) coercions. -/

structure Chapter where
  chapter_id : Int
  line_ids : List Int
deriving Repr, DecidableEq

/-- Candidate resolution inside _map_line_ids_to_step1: keep a kept id,
map a 1-based positional index into the kept order, drop anything
else. -/
def mapCandidate (kept : List Int) (r : Int) : Option Int :=
  if kept.contains r then some r
  else if 1 ≤ r ∧ r ≤ (kept.length : Int) then some (kept.getD (r - 1).toNat 0)
  else none

/-- Loop of _map_line_ids_to_step1; the accumulator holds the mapped
ids in reverse and doubles as the seen set. -/
def map_go (kept : List Int) : List Int → List Int → List Int
  | [], acc => acc.reverse
  | r :: rest, acc =>
    match mapCandidate kept r with
    | none => map_go kept rest acc
    | some c => if acc.contains c then map_go kept rest acc else map_go kept rest (c :: acc)

/-- Embedding of _map_line_ids_to_step1. -/
def map_line_ids_to_step1 (raw kept : List Int) : List Int :=
  if raw.isEmpty then [] else map_go kept raw []

/-- Python sorted(set(item for item in l if item in kept_set)). -/
def py_sorted_set_kept (kept l : List Int) : List Int :=
  ((l.filter (fun x => kept.contains x)).dedup).insertionSort (· ≤ ·)

/-- Python max over a chapter id list (only consulted on non-empty
lists). -/
def maxList : List Int → Int
  | [] => 0
  | x :: xs => xs.foldl max x

def target_index_aux (total : Nat) (lid : Int) : Nat → List Chapter → Nat
  | _, [] => total - 1
  | i, c :: rest =>
    if c.line_ids ≠ [] ∧ lid ≤ maxList c.line_ids then i
    else target_index_aux total lid (i + 1) rest

/-- Index of the chapter a missing id is appended to: the first chapter
whose (current) line id list is non-empty with max at least the id,
else the last chapter. -/
def target_index (chs : List Chapter) (lid : Int) : Nat :=
  target_index_aux chs.length lid 0 chs

def append_at : List Chapter → Nat → Int → List Chapter
  | [], _, _ => []
  | c :: rest, 0, lid => { c with line_ids := c.line_ids ++ [lid] } :: rest
  | c :: rest, Nat.succ i, lid => c :: append_at rest i lid

/-- The gap-fill loop over the missing ids. -/
def fill_missing : List Chapter → List Int → List Chapter
  | chs, [] => chs
  | chs, lid :: rest => fill_missing (append_at chs (target_index chs lid) lid) rest

def mappedChapters (chapters : List Chapter) (kept : List Int) : List Chapter :=
  chapters.map (fun c => { c with line_ids := map_line_ids_to_step1 c.line_ids kept })

/-- Kept ids not assigned to any (already mapped) chapter, in kept
order. -/
def missingOf (mapped : List Chapter) (kept : List Int) : List Int :=
  kept.filter (fun lid => !(mapped.any (fun c => c.line_ids.contains lid)))

/-- Embedding of _ensure_full_line_coverage (which mutates its chapter
list and returns early when nothing is missing, skipping the final
sort). -/
def ensure_full_line_coverage (chapters : List Chapter) (kept : List Int) : List Chapter :=
  if chapters.isEmpty then chapters
  else if (missingOf (mappedChapters chapters kept) kept).isEmpty then
    mappedChapters chapters kept
  else
    (fill_missing (mappedChapters chapters kept) (missingOf (mappedChapters chapters kept) kept)).map
      (fun c => { c with line_ids := py_sorted_set_kept kept c.line_ids })

/-- Example input for claim C9: two chapters both naming kept id 2, the
first listing its ids out of order. -/
def cexChapters : List Chapter :=
  [{ chapter_id := 1, line_ids := [2, 1] }, { chapter_id := 2, line_ids := [2] }]

end Step2Svc

open Step2Svc in
/-- C9 counterexample: on chapters [[2,1],[2]] with kept ids [1,2]
nothing is missing, so the function returns the mapped lists as they
are: kept id 2 sits in two chapters (the claim says no kept id appears
in more than one chapter) and the first chapter list [2,1] is not
sorted ascending (the final sort only runs when the gap-fill ran). -/
theorem claim_C9_counterexample :
    (ensure_full_line_coverage cexChapters [1, 2]).map (fun c => c.line_ids) = [[2, 1], [2]]
    ∧ (ensure_full_line_coverage cexChapters [1, 2]).countP
        (fun c => c.line_ids.contains 2) = 2
    ∧ ¬([2, 1] : List Int).Sorted (· ≤ ·) := by
  refine ⟨by decide, by decide, by decide⟩

namespace Step2Svc

/-! ### Remapping lemmas -/

theorem mapCandidate_mem {kept : List Int} {r c : Int} (h : mapCandidate kept r = some c) :
    c ∈ kept := by
  unfold mapCandidate at h
  by_cases h1 : kept.contains r = true
  · rw [if_pos h1] at h
    cases h
    simpa using h1
  · rw [if_neg h1] at h
    by_cases h2 : 1 ≤ r ∧ r ≤ (kept.length : Int)
    · rw [if_pos h2] at h
      cases h
      have hlt : (r - 1).toNat < kept.length := by omega
      rw [List.getD_eq_getElem kept 0 hlt]
      exact List.getElem_mem hlt
    · rw [if_neg h2] at h
      cases h

theorem map_go_subset (kept : List Int) :
    ∀ (raw acc : List Int), (∀ x ∈ acc, x ∈ kept) →
      ∀ x ∈ map_go kept raw acc, x ∈ kept := by
  intro raw
  induction raw with
  | nil =>
    intro acc hacc x hx
    simp only [map_go, List.mem_reverse] at hx
    exact hacc x hx
  | cons r rest ih =>
    intro acc hacc x hx
    simp only [map_go] at hx
    cases hc : mapCandidate kept r with
    | none =>
      rw [hc] at hx
      exact ih acc hacc x hx
    | some c =>
      rw [hc] at hx
      dsimp only at hx
      by_cases hseen : acc.contains c = true
      · rw [if_pos hseen] at hx
        exact ih acc hacc x hx
      · rw [if_neg hseen] at hx
        refine ih (c :: acc) ?_ x hx
        intro y hy
        rcases List.mem_cons.mp hy with hy | hy
        · rw [hy]; exact mapCandidate_mem hc
        · exact hacc y hy

theorem map_go_nodup (kept : List Int) :
    ∀ (raw acc : List Int), acc.Nodup → (map_go kept raw acc).Nodup := by
  intro raw
  induction raw with
  | nil =>
    intro acc hacc
    simpa [map_go] using hacc
  | cons r rest ih =>
    intro acc hacc
    simp only [map_go]
    cases hc : mapCandidate kept r with
    | none => exact ih acc hacc
    | some c =>
      dsimp only
      by_cases hseen : acc.contains c = true
      · rw [if_pos hseen]
        exact ih acc hacc
      · rw [if_neg hseen]
        refine ih (c :: acc) (List.nodup_cons.mpr ⟨?_, hacc⟩)
        simpa using hseen

theorem map_line_ids_subset {raw kept : List Int} {x : Int}
    (h : x ∈ map_line_ids_to_step1 raw kept) : x ∈ kept := by
  unfold map_line_ids_to_step1 at h
  by_cases he : raw.isEmpty
  · rw [if_pos he] at h
    simp at h
  · rw [if_neg he] at h
    exact map_go_subset kept raw [] (by intro x hx; simp at hx) x h

theorem map_line_ids_nodup (raw kept : List Int) :
    (map_line_ids_to_step1 raw kept).Nodup := by
  unfold map_line_ids_to_step1
  by_cases he : raw.isEmpty
  · rw [if_pos he]; simp
  · rw [if_neg he]
    exact map_go_nodup kept raw [] (by simp)

theorem mem_py_sorted_set_kept {kept l : List Int} {x : Int} :
    x ∈ py_sorted_set_kept kept l ↔ x ∈ l ∧ x ∈ kept := by
  unfold py_sorted_set_kept
  rw [(List.perm_insertionSort _ _).mem_iff, List.mem_dedup, List.mem_filter]
  simp

theorem py_sorted_set_kept_nodup (kept l : List Int) : (py_sorted_set_kept kept l).Nodup :=
  ((List.perm_insertionSort _ _).nodup_iff).mpr (List.nodup_dedup _)

theorem py_sorted_set_kept_sorted (kept l : List Int) :
    (py_sorted_set_kept kept l).Sorted (· ≤ ·) :=
  List.sorted_insertionSort _ _

theorem target_index_aux_lt (lid : Int) :
    ∀ (rest : List Chapter) (i total : Nat), i + rest.length = total → 1 ≤ total →
      target_index_aux total lid i rest < total := by
  intro rest
  induction rest with
  | nil =>
    intro i total hsum hpos
    simp only [target_index_aux]
    omega
  | cons c cs ih =>
    intro i total hsum hpos
    simp only [target_index_aux]
    by_cases hc : c.line_ids ≠ [] ∧ lid ≤ maxList c.line_ids
    · rw [if_pos hc]
      simp only [List.length_cons] at hsum
      omega
    · rw [if_neg hc]
      refine ih (i + 1) total ?_ hpos
      simp only [List.length_cons] at hsum
      omega

theorem target_index_lt (chs : List Chapter) (lid : Int) (h : chs ≠ []) :
    target_index chs lid < chs.length := by
  unfold target_index
  exact target_index_aux_lt lid chs 0 chs.length (by simp)
    (by simpa [Nat.succ_le_iff, List.length_pos] using h)

theorem append_at_length : ∀ (chs : List Chapter) (i : Nat) (lid : Int),
    (append_at chs i lid).length = chs.length := by
  intro chs
  induction chs with
  | nil => intro i lid; rfl
  | cons c cs ih =>
    intro i lid
    cases i with
    | zero => rfl
    | succ j => simp [append_at, ih]

theorem append_at_preserve {x : Int} :
    ∀ (chs : List Chapter) (i : Nat) (lid : Int),
      (∃ c ∈ chs, x ∈ c.line_ids) → ∃ c ∈ append_at chs i lid, x ∈ c.line_ids := by
  intro chs
  induction chs with
  | nil => intro i lid h; exact h
  | cons c cs ih =>
    intro i lid h
    obtain ⟨c0, hc0, hx⟩ := h
    cases i with
    | zero =>
      rcases List.mem_cons.mp hc0 with hc0 | hc0
      · subst hc0
        exact ⟨_, List.mem_cons_self _ _, List.mem_append_left _ hx⟩
      · exact ⟨c0, List.mem_cons_of_mem _ hc0, hx⟩
    | succ j =>
      rcases List.mem_cons.mp hc0 with hc0 | hc0
      · subst hc0
        exact ⟨c0, List.mem_cons_self _ _, hx⟩
      · obtain ⟨c1, hc1, hx1⟩ := ih j lid ⟨c0, hc0, hx⟩
        exact ⟨c1, List.mem_cons_of_mem _ hc1, hx1⟩

theorem append_at_adds :
    ∀ (chs : List Chapter) (i : Nat) (lid : Int), i < chs.length →
      ∃ c ∈ append_at chs i lid, lid ∈ c.line_ids := by
  intro chs
  induction chs with
  | nil => intro i lid h; simp at h
  | cons c cs ih =>
    intro i lid h
    cases i with
    | zero =>
      exact ⟨_, List.mem_cons_self _ _, List.mem_append_right _ (by simp)⟩
    | succ j =>
      have : j < cs.length := by simpa using h
      obtain ⟨c1, hc1, hx1⟩ := ih j lid this
      exact ⟨c1, List.mem_cons_of_mem _ hc1, hx1⟩

theorem fill_missing_length : ∀ (ms : List Int) (chs : List Chapter),
    (fill_missing chs ms).length = chs.length := by
  intro ms
  induction ms with
  | nil => intro chs; rfl
  | cons lid rest ih =>
    intro chs
    simp only [fill_missing]
    rw [ih, append_at_length]

theorem fill_missing_preserve {x : Int} : ∀ (ms : List Int) (chs : List Chapter),
    (∃ c ∈ chs, x ∈ c.line_ids) → ∃ c ∈ fill_missing chs ms, x ∈ c.line_ids := by
  intro ms
  induction ms with
  | nil => intro chs h; exact h
  | cons lid rest ih =>
    intro chs h
    exact ih _ (append_at_preserve chs (target_index chs lid) lid h)

theorem fill_missing_adds : ∀ (ms : List Int) (chs : List Chapter), chs ≠ [] →
    ∀ lid ∈ ms, ∃ c ∈ fill_missing chs ms, lid ∈ c.line_ids := by
  intro ms
  induction ms with
  | nil => intro chs _ lid h; simp at h
  | cons lid0 rest ih =>
    intro chs hne lid hmem
    have hne2 : append_at chs (target_index chs lid0) lid0 ≠ [] := by
      intro hcontra
      have := append_at_length chs (target_index chs lid0) lid0
      rw [hcontra] at this
      simp at this
      exact hne (List.eq_nil_of_length_eq_zero this.symm)
    rcases List.mem_cons.mp hmem with hmem | hmem
    · subst hmem
      exact fill_missing_preserve rest _
        (append_at_adds chs (target_index chs lid) lid (target_index_lt chs lid hne))
    · exact ih _ hne2 lid hmem

theorem mem_missingOf {mapped : List Chapter} {kept : List Int} {lid : Int} :
    lid ∈ missingOf mapped kept ↔
      lid ∈ kept ∧ ¬∃ c ∈ mapped, lid ∈ c.line_ids := by
  unfold missingOf
  rw [List.mem_filter]
  simp

theorem missingOf_empty_assigned {mapped : List Chapter} {kept : List Int}
    (h : missingOf mapped kept = []) :
    ∀ lid ∈ kept, ∃ c ∈ mapped, lid ∈ c.line_ids := by
  intro lid hlid
  have := List.filter_eq_nil_iff.mp h lid hlid
  simpa using this

theorem mem_mappedChapters_line {chapters : List Chapter} {kept : List Int} {c : Chapter}
    (hc : c ∈ mappedChapters chapters kept) {x : Int} (hx : x ∈ c.line_ids) : x ∈ kept := by
  obtain ⟨c0, _, rfl⟩ := List.mem_map.mp hc
  exact map_line_ids_subset hx

end Step2Svc

namespace Step2Svc

theorem ensure_eq_mapped (chapters : List Chapter) (kept : List Int)
    (h : chapters ≠ []) (hm : missingOf (mappedChapters chapters kept) kept = []) :
    ensure_full_line_coverage chapters kept = mappedChapters chapters kept := by
  unfold ensure_full_line_coverage
  have hne : chapters.isEmpty = false := by simpa using h
  rw [hne, hm]
  rfl

theorem ensure_eq_filled (chapters : List Chapter) (kept : List Int)
    (h : chapters ≠ []) (hm : missingOf (mappedChapters chapters kept) kept ≠ []) :
    ensure_full_line_coverage chapters kept =
      (fill_missing (mappedChapters chapters kept)
        (missingOf (mappedChapters chapters kept) kept)).map
        (fun c => { c with line_ids := py_sorted_set_kept kept c.line_ids }) := by
  unfold ensure_full_line_coverage
  have hne : chapters.isEmpty = false := by simpa using h
  have hmne : (missingOf (mappedChapters chapters kept) kept).isEmpty = false := by
    simpa using hm
  rw [hne, hmne]
  rfl

theorem mappedChapters_ne_nil {chapters : List Chapter} (kept : List Int)
    (h : chapters ≠ []) : mappedChapters chapters kept ≠ [] := by
  unfold mappedChapters
  simpa using h

end Step2Svc

open Step2Svc in
/-- C9 amended: for every non-empty chapter list and kept id list, the
remapping covers exactly the kept ids (the union of the final chapter
lists equals the kept set) and every chapter list is duplicate free;
when no kept id was missing after the per-chapter mapping the function
returns the mapped lists untouched (so they need not be sorted and a
kept id mapped by several chapters stays in each); when the gap-fill
ran, every final chapter list is additionally sorted ascending. -/
theorem claim_C9 (chapters : List Chapter) (kept : List Int) (h : chapters ≠ []) :
    (∀ x : Int, (∃ c ∈ ensure_full_line_coverage chapters kept, x ∈ c.line_ids) ↔ x ∈ kept)
    ∧ (∀ c ∈ ensure_full_line_coverage chapters kept, c.line_ids.Nodup)
    ∧ ((missingOf (mappedChapters chapters kept) kept = [] ∧
          ensure_full_line_coverage chapters kept = mappedChapters chapters kept)
       ∨ (∀ c ∈ ensure_full_line_coverage chapters kept, c.line_ids.Sorted (· ≤ ·))) := by
  by_cases hm : missingOf (mappedChapters chapters kept) kept = []
  · rw [ensure_eq_mapped chapters kept h hm]
    refine ⟨?_, ?_, Or.inl ⟨hm, rfl⟩⟩
    · intro x
      constructor
      · intro ⟨c, hc, hx⟩
        exact mem_mappedChapters_line hc hx
      · intro hx
        exact missingOf_empty_assigned hm x hx
    · intro c hc
      obtain ⟨c0, _, rfl⟩ := List.mem_map.mp hc
      exact map_line_ids_nodup c0.line_ids kept
  · rw [ensure_eq_filled chapters kept h hm]
    refine ⟨?_, ?_, Or.inr ?_⟩
    · intro x
      constructor
      · intro ⟨c, hc, hx⟩
        obtain ⟨c0, _, rfl⟩ := List.mem_map.mp hc
        exact (mem_py_sorted_set_kept.mp hx).2
      · intro hx
        have hfill : ∃ c ∈ fill_missing (mappedChapters chapters kept)
            (missingOf (mappedChapters chapters kept) kept), x ∈ c.line_ids := by
          by_cases hass : ∃ c ∈ mappedChapters chapters kept, x ∈ c.line_ids
          · exact fill_missing_preserve _ _ hass
          · have hmiss : x ∈ missingOf (mappedChapters chapters kept) kept :=
              mem_missingOf.mpr ⟨hx, hass⟩
            exact fill_missing_adds _ _ (mappedChapters_ne_nil kept h) x hmiss
        obtain ⟨c, hc, hxc⟩ := hfill
        refine ⟨{ c with line_ids := py_sorted_set_kept kept c.line_ids },
          List.mem_map_of_mem _ hc, ?_⟩
        exact mem_py_sorted_set_kept.mpr ⟨hxc, hx⟩
    · intro c hc
      obtain ⟨c0, _, rfl⟩ := List.mem_map.mp hc
      exact py_sorted_set_kept_nodup kept c0.line_ids
    · intro c hc
      obtain ⟨c0, _, rfl⟩ := List.mem_map.mp hc
      exact py_sorted_set_kept_sorted kept c0.line_ids

open Step2Svc in
/-- C9 witness: the amended statement applied to the concrete
duplicate-id input, with the non-emptiness hypothesis discharged by
computation. -/
theorem claim_C9_witness :
    (∀ x : Int, (∃ c ∈ ensure_full_line_coverage cexChapters [1, 2], x ∈ c.line_ids) ↔
        x ∈ [(1 : Int), 2])
    ∧ (∀ c ∈ ensure_full_line_coverage cexChapters [1, 2], c.line_ids.Nodup)
    ∧ ((missingOf (mappedChapters cexChapters [1, 2]) [1, 2] = [] ∧
          ensure_full_line_coverage cexChapters [1, 2] = mappedChapters cexChapters [1, 2])
       ∨ (∀ c ∈ ensure_full_line_coverage cexChapters [1, 2], c.line_ids.Sorted (· ≤ ·))) :=
  claim_C9 cexChapters [1, 2] (by decide)
